import Mathlib

/-!
Verification of the Pirna-flask cross-instance data migration engine.

The definitions below are a shallow embedding of the migration code in
`scripts/db_migrate-prod2sqlite.py` and `api/data_export_import_api.py`:
Python dictionaries and JSON payload values become the inductive `Val`,
database tables become lists of row structures with ids assigned from a
counter, and the paginated HTTP transport becomes an oracle function from
(page, attempt) to a response. Record creation (`.create()`) is modelled
as appending a row; the exception paths the source guards with
`try/except` around a create call are not reachable in the model, so the
per-stage `errors` lists stay empty and only the `imported`/`failed`
tallies are kept.
-/

namespace PirnaMigration

/-- JSON-like values as they travel through the migration payloads: the
constructors mirror Python's `None`, `str`, `int`, `bool`, `list` and
`dict` (an association list, in insertion order). -/
inductive Val where
  | null
  | str (s : String)
  | int (n : Int)
  | bool (b : Bool)
  | list (xs : List Val)
  | obj (kvs : List (String × Val))

/-- Scalar payload values: the ones Python can hash (dictionary keys) and
bind as SQL comparison operands. -/
def Val.isScalar : Val → Bool
  | .list _ => false
  | .obj _ => false
  | _ => true

/-- Equality of payload values as the source uses it for dictionary keys
(`id_mapping[old_id]`) and column filters (`filter_by(_uid=...)`). Those
positions only ever hold scalars — a compound dictionary key raises
`TypeError` and a compound column binding fails the statement, paths
outside this embedding — so compound values compare unequal here. -/
def eqV (a b : Val) : Bool :=
  match a, b with
  | .null, .null => true
  | .str x, .str y => x == y
  | .int x, .int y => x == y
  | .bool x, .bool y => x == y
  | _, _ => false

/-- Python truthiness of a value, as used by `if x:` and `x or y` in the
source. -/
def Val.truthy : Val → Bool
  | .null => false
  | .str s => !s.isEmpty
  | .int n => n != 0
  | .bool b => b
  | .list xs => !xs.isEmpty
  | .obj kvs => !kvs.isEmpty

/-- First-match lookup in an association list, the model of a Python
dictionary read. -/
def lookupKV : List (String × Val) → String → Option Val
  | [], _ => Option.none
  | (k, v) :: rest, key => if k == key then some v else lookupKV rest key

/-- Python's `d.get(key)`: the stored value, or `None` when the key is
absent. Reading a field of a non-dictionary value yields `null` here;
the source only reads fields of records that are dictionaries. -/
def Val.get (v : Val) (key : String) : Val :=
  match v with
  | .obj kvs => (lookupKV kvs key).getD .null
  | _ => .null

/-- Python's `d.get(key, dflt)`: the stored value (even when that value
is `None`), or `dflt` when the key is absent. -/
def Val.getD (v : Val) (key : String) (dflt : Val) : Val :=
  match v with
  | .obj kvs => (lookupKV kvs key).getD dflt
  | _ => dflt

/-- Python's short-circuit `a or b` on payload values. -/
def pyOr (a b : Val) : Val := if a.truthy then a else b

/-- Python's `key in d` on a record. -/
def Val.hasKey (v : Val) (key : String) : Bool :=
  match v with
  | .obj kvs => (lookupKV kvs key).isSome
  | _ => false

/-- Python's `isinstance(v, dict)`. -/
def Val.isObj : Val → Bool
  | .obj _ => true
  | _ => false

/-! ## Default-data filter (`filter_default_data` and its helpers in
`scripts/db_migrate-prod2sqlite.py`) -/

/-- `DEFAULT_DATA['sections']` of the migration script. -/
def DEFAULT_SECTIONS : List String := ["CSA", "CSP", "Robotics", "CSSE"]

/-- `DEFAULT_DATA['topics']` of the migration script. -/
def DEFAULT_TOPICS : List String :=
  ["/lessons/flask-introduction", "/hacks/javascript-basics",
   "/projects/portfolio-showcase", "/general/daily-standup",
   "/resources/study-materials"]

/-- `DEFAULT_DATA['users']`: the two configured seed accounts plus the
hard-coded test user `niko`. -/
def defaultUserList (adminUid defaultUid : String) : List String :=
  [adminUid, defaultUid, "niko"]

/-- `is_default_user`: membership of the uid in the seed allow-list.
Only a string can equal a member of the list. -/
def is_default_user (du : List String) (uid : Val) : Bool :=
  match uid with
  | .str s => du.contains s
  | _ => false

/-- `is_default_section`. -/
def is_default_section (abb : Val) : Bool :=
  match abb with
  | .str s => DEFAULT_SECTIONS.contains s
  | _ => false

/-- `is_default_topic`. -/
def is_default_topic (pp : Val) : Bool :=
  match pp with
  | .str s => DEFAULT_TOPICS.contains s
  | _ => false

/-- Python list comprehension `[x for x in v if p x]` over a payload
value; the source only reaches it when `v` is a (truthy) list. -/
def vfilterList (p : Val → Bool) : Val → Val
  | .list xs => .list (xs.filter p)
  | v => v

/-- The field-name probe `'pagePath' if topics and 'pagePath' in topics[0]
else 'page_path'` of the topics branch. -/
def topicsPagePathKey (topics : Val) : String :=
  match topics with
  | .list (t :: _) => if t.hasKey "pagePath" then "pagePath" else "page_path"
  | _ => "page_path"

/-- The author-uid expression of the microblogs branch:
`m.get('userUid') or m.get('user', {}).get('uid')`. -/
def microblogAuthor (m : Val) : Val :=
  pyOr (m.get "userUid") ((m.getD "user" (.obj [])).get "uid")

/-- The author-uid expression of the posts branch, exactly as the source
parenthesizes: the conditional binds looser than `or`, so the whole
`or`-chain is guarded by `isinstance(p.get('user'), dict)` and a record
without a dictionary under `'user'` evaluates to `None`. -/
def postAuthor (p : Val) : Val :=
  if (p.get "user").isObj then
    pyOr (p.get "userUid") ((p.getD "user" (.obj [])).get "uid")
  else .null

/-- The five collections `filter_default_data` copies through by name. -/
def copyKeys : List String := ["classrooms", "feedback", "study", "personas", "user_personas"]

/-- One conditional assignment `if <collection>: filtered[name] = v` of
`filter_default_data`, as the entries it contributes to the result. -/
def branchEntry (cond : Bool) (name : String) (v : Val) : List (String × Val) :=
  if cond then [(name, v)] else []

/-- `filter_default_data(all_data)`: drops seed users, sections and
topics, drops microblogs and posts authored by seed users, copies the
remaining collections and every other key through unchanged. `du` is the
seed-user allow-list (`DEFAULT_DATA['users']`). -/
def filter_default_data (du : List String) (all_data : List (String × Val)) : List (String × Val) :=
  let users := (lookupKV all_data "users").getD (.list [])
  let sections := (lookupKV all_data "sections").getD (.list [])
  let topics := (lookupKV all_data "topics").getD (.list [])
  let ppk := topicsPagePathKey topics
  let microblogs := (lookupKV all_data "microblogs").getD (.list [])
  let posts := (lookupKV all_data "posts").getD (.list [])
  let f5 :=
    branchEntry users.truthy "users"
      (vfilterList (fun u => !is_default_user du (u.get "uid")) users) ++
    branchEntry sections.truthy "sections"
      (vfilterList (fun s => !is_default_section (s.get "abbreviation")) sections) ++
    branchEntry topics.truthy "topics"
      (vfilterList (fun t => !is_default_topic (pyOr (t.get ppk) (t.get "page_path"))) topics) ++
    branchEntry microblogs.truthy "microblogs"
      (vfilterList (fun m => !is_default_user du (microblogAuthor m)) microblogs) ++
    branchEntry posts.truthy "posts"
      (vfilterList (fun p => !is_default_user du (postAuthor p)) posts)
  let f6 := f5 ++
    ((copyKeys.filter (fun k => (lookupKV all_data k).isSome)).map
      (fun k => (k, (lookupKV all_data k).getD .null)))
  f6 ++ all_data.filter (fun kv => (lookupKV f6 kv.1).isNone)

/-- The five payload keys whose collections the filter rewrites. -/
def filteredEntityKeys : List String := ["users", "sections", "topics", "microblogs", "posts"]

/-! ## Target database model

Rows are the objects the import stages construct; each carries the
surrogate id the target assigns at creation (`db.nextId`, incremented per
created row). Payload-derived fields keep their `Val` form. -/

structure SectionRow where
  id : Nat
  name : Val
  abbreviation : Val

structure UserRow where
  id : Nat
  name : Val
  uid : Val
  password : Val
  sid : Val
  role : Val
  pfp : Val
  kasm_server_needed : Val
  grade_data : Val
  ap_exam : Val
  school : Val
  classes : Val
  email : Val
  sectionIds : List Nat

structure TopicRow where
  id : Nat
  page_path : Val
  page_title : Val
  page_description : Val
  display_name : Val
  color : Val
  icon : Val
  allow_anonymous : Val
  moderated : Val
  max_posts_per_user : Val
  settings : Val

structure PersonaRow where
  id : Nat
  palias : Val
  category : Val
  bio_map : Val
  empathy_map : Val

structure UserPersonaRow where
  user_id : Nat
  persona_id : Nat
  weight : Val

structure MicroBlogRow where
  id : Nat
  user_id : Nat
  content : Val
  topic_id : Option Nat
  data : Val

structure StudyRow where
  id : Nat
  user_id : Option Nat
  topic : Val
  subtopic : Val
  studied : Val
  timestamp : Val

structure DB where
  sections : List SectionRow
  users : List UserRow
  topics : List TopicRow
  personas : List PersonaRow
  user_personas : List UserPersonaRow
  microblogs : List MicroBlogRow
  study : List StudyRow
  nextId : Nat

/-- Per-stage result tally (`imported`/`failed`). The `errors` list of
the source collects exception strings; creation cannot throw in this
model, so it is dropped. -/
structure Tally where
  imported : Nat
  failed : Nat
deriving DecidableEq

def zeroTally : Tally := { imported := 0, failed := 0 }

/-- `Section.query.filter_by(_abbreviation=...).first()`. -/
def findSection (rows : List SectionRow) (abb : Val) : Option SectionRow :=
  rows.find? (fun s => eqV s.abbreviation abb)

/-- `User.query.filter_by(_uid=...).first()`. -/
def findUser (rows : List UserRow) (uid : Val) : Option UserRow :=
  rows.find? (fun u => eqV u.uid uid)

/-- `Topic.query.filter_by(_page_path=...).first()`. -/
def findTopic (rows : List TopicRow) (pp : Val) : Option TopicRow :=
  rows.find? (fun tp => eqV tp.page_path pp)

/-- `Persona.query.filter_by(_alias=...).first()`. -/
def findPersona (rows : List PersonaRow) (al : Val) : Option PersonaRow :=
  rows.find? (fun p => eqV p.palias al)

/-- `UserPersona.query.filter_by(user_id=..., persona_id=...).first()`. -/
def findUserPersona (rows : List UserPersonaRow) (uN pN : Nat) : Option UserPersonaRow :=
  rows.find? (fun up => up.user_id == uN && up.persona_id == pN)

/-! ## Natural-key guarded import loops

`_import_sections`, `_import_users`, `_import_topics` and
`_import_personas` (and the script's `load_*` twins) share one loop: look
the record up by its natural key, skip silently when found, otherwise
construct a row and create it. `keyedImport` is that loop; each entity
instantiates it with its key expression and row constructor. -/

def keyedImport {Row : Type} (key : Val → Val) (rk : Row → Val) (mk : Nat → Val → Row) :
    List Val → List Row → Nat → Tally → List Row × Nat × Tally
  | [], rows, nid, t => (rows, nid, t)
  | rd :: rest, rows, nid, t =>
    if (rows.find? (fun r => eqV (rk r) (key rd))).isSome then
      keyedImport key rk mk rest rows nid t
    else
      keyedImport key rk mk rest (rows ++ [mk nid rd]) (nid + 1)
        { t with imported := t.imported + 1 }

def sectionKey (sd : Val) : Val := sd.get "abbreviation"

def mkSectionRow (nid : Nat) (sd : Val) : SectionRow :=
  { id := nid, name := sd.get "name", abbreviation := sd.get "abbreviation" }

/-- `ImportAllData._import_sections` / `load_sections`. -/
def importSections (data : List Val) (db : DB) : DB × Tally :=
  let r := keyedImport sectionKey SectionRow.abbreviation mkSectionRow
    data db.sections db.nextId zeroTally
  ({ db with sections := r.1, nextId := r.2.1 }, r.2.2)

def userKey (ud : Val) : Val := ud.get "uid"

/-- The `sections` association loop of the user import: each listed
abbreviation that resolves to an existing Section is attached. -/
def userSectionIds (sections : List SectionRow) (sectionsData : Val) : List Nat :=
  match sectionsData with
  | .list xs =>
    xs.foldl (fun acc secd =>
      let abb := secd.get "abbreviation"
      if abb.truthy then
        match findSection sections abb with
        | some s => acc ++ [s.id]
        | Option.none => acc
      else acc) []
  | _ => []

def mkUserRow (sections : List SectionRow) (nid : Nat) (ud : Val) : UserRow :=
  { id := nid
    name := ud.get "name"
    uid := ud.get "uid"
    password := ud.getD "password" (.str "")
    sid := ud.get "sid"
    role := ud.getD "role" (.str "User")
    pfp := ud.get "pfp"
    kasm_server_needed := ud.getD "kasm_server_needed" (.bool false)
    grade_data := pyOr (ud.get "grade_data") (ud.get "gradeData")
    ap_exam := pyOr (ud.get "ap_exam") (ud.get "apExam")
    school := ud.get "school"
    classes := pyOr (ud.get "class") (ud.get "_class")
    email := if (ud.get "email").truthy then ud.get "email" else .null
    sectionIds := userSectionIds sections (ud.get "sections") }

/-- `ImportAllData._import_users` / `load_users`. -/
def importUsers (data : List Val) (db : DB) : DB × Tally :=
  let r := keyedImport userKey UserRow.uid (mkUserRow db.sections)
    data db.users db.nextId zeroTally
  ({ db with users := r.1, nextId := r.2.1 }, r.2.2)

/-- The topic natural key: `topic_data.get('pagePath') or
topic_data.get('page_path')`. -/
def topicKey (td : Val) : Val := pyOr (td.get "pagePath") (td.get "page_path")

def mkTopicRow (nid : Nat) (td : Val) : TopicRow :=
  { id := nid
    page_path := topicKey td
    page_title := pyOr (td.get "pageTitle") (td.get "page_title")
    page_description := pyOr (td.get "pageDescription") (td.get "page_description")
    display_name := pyOr (td.get "displayName") (td.get "display_name")
    color := td.getD "color" (.str "#007bff")
    icon := td.get "icon"
    allow_anonymous := pyOr (td.get "allowAnonymous") (td.getD "allow_anonymous" (.bool false))
    moderated := td.getD "moderated" (.bool false)
    max_posts_per_user := pyOr (td.get "maxPostsPerUser") (td.getD "max_posts_per_user" (.int 10))
    settings := td.getD "settings" (.obj []) }

/-- `ImportAllData._import_topics` (the script's `load_topics` is the
same loop, except that it also skips a record whose page path is falsy
before the lookup). -/
def importTopics (data : List Val) (db : DB) : DB × Tally :=
  let r := keyedImport topicKey TopicRow.page_path mkTopicRow
    data db.topics db.nextId zeroTally
  ({ db with topics := r.1, nextId := r.2.1 }, r.2.2)

def personaKey (pd : Val) : Val := pd.get "alias"

def mkPersonaRow (nid : Nat) (pd : Val) : PersonaRow :=
  { id := nid
    palias := pd.get "alias"
    category := pd.get "category"
    bio_map := pyOr (pd.get "bio_map") (pd.get "bioMap")
    empathy_map := pyOr (pd.get "empathy_map") (pd.get "empathyMap") }

/-- `ImportAllData._import_personas` / `load_personas`. -/
def importPersonas (data : List Val) (db : DB) : DB × Tally :=
  let r := keyedImport personaKey PersonaRow.palias mkPersonaRow
    data db.personas db.nextId zeroTally
  ({ db with personas := r.1, nextId := r.2.1 }, r.2.2)

/-- The two dependency lookups of the user-persona import: both the user
(by uid) and the persona (by alias) must resolve. -/
def upResolved (users : List UserRow) (personas : List PersonaRow) (upd : Val) : Option (Nat × Nat) :=
  let user_uid := upd.get "userUid"
  let persona_alias := upd.get "personaAlias"
  match (if user_uid.truthy then findUser users user_uid else Option.none),
        (if persona_alias.truthy then findPersona personas persona_alias else Option.none) with
  | some u, some p => some (u.id, p.id)
  | _, _ => Option.none

/-- `ImportAllData._import_user_personas` / `load_user_personas`: skip
(counted failed) when a dependency is missing, skip silently when the
(user, persona) pair already exists, create otherwise. -/
def importUserPersonas : List Val → DB → Tally → DB × Tally
  | [], db, t => (db, t)
  | upd :: rest, db, t =>
    match upResolved db.users db.personas upd with
    | Option.none => importUserPersonas rest db { t with failed := t.failed + 1 }
    | some (uN, pN) =>
      match findUserPersona db.user_personas uN pN with
      | some _ => importUserPersonas rest db t
      | Option.none =>
        importUserPersonas rest
          { db with user_personas :=
              db.user_personas ++ [{ user_id := uN, persona_id := pN, weight := upd.getD "weight" (.int 1) }] }
          { t with imported := t.imported + 1 }

/-- The microblog user lookup `User.query.filter_by(_uid=userUid)` guarded
by a truthy uid. -/
def mbResolveUser (users : List UserRow) (mb : Val) : Option UserRow :=
  if (mb.get "userUid").truthy then findUser users (mb.get "userUid") else Option.none

/-- `ImportAllData._import_microblogs`: a record whose user does not
resolve is counted failed and not created. -/
def importMicroblogs : List Val → DB → Tally → DB × Tally
  | [], db, t => (db, t)
  | mb :: rest, db, t =>
    match mbResolveUser db.users mb with
    | Option.none => importMicroblogs rest db { t with failed := t.failed + 1 }
    | some u =>
      let topic_id :=
        if (mb.get "topicPath").truthy then (findTopic db.topics (mb.get "topicPath")).map (fun tp => tp.id)
        else Option.none
      let row : MicroBlogRow :=
        { id := db.nextId, user_id := u.id, content := mb.get "content",
          topic_id := topic_id, data := mb.getD "data" (.obj []) }
      importMicroblogs rest { db with microblogs := db.microblogs ++ [row], nextId := db.nextId + 1 }
        { t with imported := t.imported + 1 }

/-- The study user lookup: `User.query.filter_by(_uid=userUid)` when the
uid is truthy, `None` otherwise. -/
def resolveStudyUser (users : List UserRow) (sr : Val) : Option UserRow :=
  if (sr.get "userUid").truthy then findUser users (sr.get "userUid") else Option.none

/-- The study row as `_import_study` / `load_study` construct it:
`user_id=user.id if user else None` — the record is created either way. -/
def mkStudyRow (users : List UserRow) (nid : Nat) (sr : Val) : StudyRow :=
  { id := nid
    user_id := (resolveStudyUser users sr).map (fun u => u.id)
    topic := sr.get "topic"
    subtopic := sr.get "subtopic"
    studied := sr.getD "studied" (.bool false)
    timestamp := sr.get "timestamp" }

/-- `ImportAllData._import_study` / `load_study`: every record is
created, with a null user reference when the uid does not resolve. -/
def importStudy : List Val → DB → Tally → DB × Tally
  | [], db, t => (db, t)
  | sr :: rest, db, t =>
    importStudy rest
      { db with study := db.study ++ [mkStudyRow db.users db.nextId sr], nextId := db.nextId + 1 }
      { t with imported := t.imported + 1 }

/-- The rows one study-import run appends: one per payload record, ids
assigned consecutively from `nid`. -/
def studyRowsSpec (users : List UserRow) (nid : Nat) : List Val → List StudyRow
  | [] => []
  | sr :: rest => mkStudyRow users nid sr :: studyRowsSpec users (nid + 1) rest

/-! ## Two-pass post import with the old-id → new-id remap table

`ImportAllData._import_posts` and the script's `load_posts` split the
payload into top-level posts (`parent_id`/`parentId` falsy) and replies,
create the top-level posts first while filling `id_mapping`, then create
each reply with its parent resolved through the mapping. The user lookup
(by `userUid` in the API importer; by the uid map with a name fallback in
the script) reads tables this stage never writes, so it is abstracted as
a function `resolve` from the record to the found user's surrogate id.
The `firstTrace`/`replyTrace` fields are ghost output recording each
record's outcome; they influence neither the database nor the tallies. -/

structure PostRow where
  id : Nat
  user_id : Nat
  content : Val
  grade_received : Val
  page_url : Val
  page_title : Val
  parent_id : Option Nat

structure PostsDB where
  posts : List PostRow
  nextId : Nat

/-- A record counts as a reply when `p.get('parent_id') or
p.get('parentId')` is truthy. -/
def isReplyRec (p : Val) : Bool := (pyOr (p.get "parent_id") (p.get "parentId")).truthy

/-- The old parent id a reply carries:
`reply_data.get('parentId') or reply_data.get('parent_id')`. -/
def oldParentOf (r : Val) : Val := pyOr (r.get "parentId") (r.get "parent_id")

/-- Lookup in the remap table. Python dictionary assignment overwrites,
which the prepend-and-first-match discipline below reproduces. -/
def mLookup : List (Val × Nat) → Val → Option Nat
  | [], _ => Option.none
  | (k, v) :: rest, key => if eqV k key then some v else mLookup rest key

structure PostsImportState where
  db : PostsDB
  mapping : List (Val × Nat)
  imported : Nat
  failed : Nat
  firstTrace : List (Val × Option Nat)
  replyTrace : List (Val × Option PostRow)

/-- First pass, one top-level record: skip (failed) when the user does
not resolve; otherwise create the post with no parent and, when the
record carries a truthy `id`, record `old_id -> created.id` in the
mapping. -/
def postsFirstStep (resolve : Val → Option Nat) (p : Val) (st : PostsImportState) : PostsImportState :=
  match resolve p with
  | Option.none =>
    { st with failed := st.failed + 1, firstTrace := st.firstTrace ++ [(p, Option.none)] }
  | some uId =>
    let row : PostRow :=
      { id := st.db.nextId
        user_id := uId
        content := p.get "content"
        grade_received := pyOr (p.get "gradeReceived") (p.get "grade_received")
        page_url := pyOr (p.get "pageUrl") (p.get "page_url")
        page_title := pyOr (p.get "pageTitle") (p.get "page_title")
        parent_id := Option.none }
    { db := { posts := st.db.posts ++ [row], nextId := st.db.nextId + 1 }
      mapping := if (p.get "id").truthy then (p.get "id", row.id) :: st.mapping else st.mapping
      imported := st.imported + 1
      failed := st.failed
      firstTrace := st.firstTrace ++ [(p, some row.id)]
      replyTrace := st.replyTrace }

/-- Second pass, one reply record: skip (failed) when the user does not
resolve or when `id_mapping.get(old_parent_id)` is falsy (`None`, or the
impossible id 0); otherwise create the reply with the remapped parent. -/
def postsSecondStep (resolve : Val → Option Nat) (r : Val) (st : PostsImportState) : PostsImportState :=
  match resolve r with
  | Option.none =>
    { st with failed := st.failed + 1, replyTrace := st.replyTrace ++ [(r, Option.none)] }
  | some uId =>
    match mLookup st.mapping (oldParentOf r) with
    | Option.none =>
      { st with failed := st.failed + 1, replyTrace := st.replyTrace ++ [(r, Option.none)] }
    | some np =>
      if np = 0 then
        { st with failed := st.failed + 1, replyTrace := st.replyTrace ++ [(r, Option.none)] }
      else
        let row : PostRow :=
          { id := st.db.nextId, user_id := uId, content := r.get "content",
            grade_received := .null, page_url := .null, page_title := .null,
            parent_id := some np }
        { st with
          db := { posts := st.db.posts ++ [row], nextId := st.db.nextId + 1 }
          imported := st.imported + 1
          replyTrace := st.replyTrace ++ [(r, some row)] }

/-- Run one pass over its records in order. -/
def runPass (step : Val → PostsImportState → PostsImportState) : List Val → PostsImportState → PostsImportState
  | [], st => st
  | p :: rest, st => runPass step rest (step p st)

/-- `_import_posts` / `load_posts`: split, first pass, second pass. -/
def importPosts (resolve : Val → Option Nat) (posts_data : List Val) (db : PostsDB) : PostsImportState :=
  let top_level := posts_data.filter (fun p => !isReplyRec p)
  let replies := posts_data.filter (fun p => isReplyRec p)
  let st0 : PostsImportState :=
    { db := db, mapping := [], imported := 0, failed := 0, firstTrace := [], replyTrace := [] }
  runPass (postsSecondStep resolve) replies (runPass (postsFirstStep resolve) top_level st0)

/-- The API importer's user resolution for posts: look the author up by
`userUid`. -/
def apiResolvePost (users : List UserRow) (p : Val) : Option Nat :=
  if (p.get "userUid").truthy then (findUser users (p.get "userUid")).map (fun u => u.id)
  else Option.none

/-! ## Extraction: paginated transport with retries

`extract_all_data` of the migration script. The network is an oracle:
for a paginated entity type it maps (page, attempt-within-page) to a
response, for a single-shot type it gives one response. `transient`
stands for a request timeout or an HTTP 504 (retried, after a fixed
2-second sleep, up to 3 attempts per page); `terminal` for any other
non-2xx status or request error (no retry). The unbounded `while True`
page loop is run on explicit fuel; every theorem supplies enough fuel
for the loop to reach its stopping page. Error-message strings assembled
for logging are elided: a failed endpoint is recorded by its name. -/

inductive Resp where
  | ok (records : List Val) (has_next : Bool)
  | transient
  | terminal

inductive PageOutcome where
  | got (records : List Val) (has_next : Bool) (attempts : Nat) (sleeps : List Nat)
  | empty (attempts : Nat) (sleeps : List Nat)
  | failed (attempts : Nat) (sleeps : List Nat)

/-- Requests actually issued for the page. -/
def PageOutcome.attempts : PageOutcome → Nat
  | .got _ _ a _ => a
  | .empty a _ => a
  | .failed a _ => a

/-- Record one inter-attempt sleep in front of the outcome's list. -/
def PageOutcome.addSleep (d : Nat) : PageOutcome → PageOutcome
  | .got rs hn a s => .got rs hn a (d :: s)
  | .empty a s => .empty a (d :: s)
  | .failed a s => .failed a (d :: s)

/-- The per-page retry loop (`while retry_count < max_retries and not
success`), with `max_retries = 3`: a successful 2xx response ends the
page (empty body ends the whole pagination); a transient failure sleeps
2 seconds and retries until the third attempt fails the page; a terminal
failure fails the page at once. `idx` counts attempts already made,
`left` the attempts the bound still allows. -/
def tryPage (fetch : Nat → Resp) (idx : Nat) : Nat → PageOutcome
  | 0 => .failed idx []
  | left + 1 =>
    match fetch idx with
    | .ok rs hn => if rs.isEmpty then .empty (idx + 1) [] else .got rs hn (idx + 1) []
    | .transient =>
      if left == 0 then .failed (idx + 1) []
      else (tryPage fetch (idx + 1) left).addSleep 2
    | .terminal => .failed (idx + 1) []

structure EntityFetch where
  records : List Val
  failed : Bool
  pages : List PageOutcome

/-- The `while True` page loop: fetch pages from `page` upward,
concatenating records in arrival order, until a page comes back empty
(success) or fails (entity recorded failed); partial records are kept
either way. After a successful non-empty page the loop always advances —
both `has_next` branches of the source fall through to `page += 1`.
`pages` is ghost output: the outcome of every page fetched. -/
def pageLoop (fetch : Nat → Nat → Resp) : Nat → Nat → List Val → List PageOutcome → EntityFetch
  | 0, _, acc, tr => { records := acc, failed := false, pages := tr }
  | fuel + 1, page, acc, tr =>
    match tryPage (fetch page) 0 3 with
    | .got rs hn a s => pageLoop fetch fuel (page + 1) (acc ++ rs) (tr ++ [.got rs hn a s])
    | .empty a s => { records := acc, failed := false, pages := tr ++ [.empty a s] }
    | .failed a s => { records := acc, failed := true, pages := tr ++ [.failed a s] }

/-- A single-shot (non-paginated) endpoint response: the parsed 2xx body,
or any failure (non-2xx, timeout, request error) — no retry. -/
inductive SingleResp where
  | ok (body : List (String × Val))
  | fail

structure Transport where
  pag : String → Nat → Nat → Resp
  single : String → SingleResp

/-- `EXPORT_ENDPOINTS` in iteration (insertion) order. -/
def EXPORT_TYPES : List String :=
  ["sections", "users", "topics", "microblogs", "posts",
   "classrooms", "feedback", "study", "personas", "user_personas"]

/-- `paginated_types` of the script. -/
def paginatedTypes : List String :=
  ["users", "microblogs", "posts", "topics", "personas", "user_personas"]

/-- `critical = ['users', 'sections']`. -/
def CRITICAL_TYPES : List String := ["users", "sections"]

structure ExtractAcc where
  data : List (String × Val)
  total : Nat
  failed : List String

/-- One entity type of the extraction loop. Paginated: run the page
loop, store whatever was gathered (even on failure) and count it.
Single-shot: on success store the body's collection under the type's key
(an empty list when the key is missing), counting a non-list value as
one record; on failure record the type and store nothing. -/
def extractStep (tr : Transport) (fuel : Nat) (acc : ExtractAcc) (dt : String) : ExtractAcc :=
  if paginatedTypes.contains dt then
    let r := pageLoop (tr.pag dt) fuel 1 [] []
    { data := acc.data ++ [(dt, .list r.records)]
      total := acc.total + r.records.length
      failed := acc.failed ++ (if r.failed then [dt] else []) }
  else
    match tr.single dt with
    | .ok body =>
      match lookupKV body dt with
      | some v =>
        { acc with
          data := acc.data ++ [(dt, v)]
          total := acc.total + (match v with | .list xs => xs.length | _ => 1) }
      | Option.none => { acc with data := acc.data ++ [(dt, .list [])] }
    | .fail => { acc with failed := acc.failed ++ [dt] }

/-- The extraction loop over all entity types. -/
def extractRaw (tr : Transport) (fuel : Nat) : ExtractAcc :=
  EXPORT_TYPES.foldl (extractStep tr fuel) { data := [], total := 0, failed := [] }

/-- The `_metadata` block appended to the payload. -/
def metadataVal (total : Nat) (failed : List String) : Val :=
  .obj [("total_records", .int total),
        ("tables", .list (EXPORT_TYPES.map .str)),
        ("failed_endpoints", .list (failed.map .str))]

structure Extraction where
  all_data : List (String × Val)
  total : Nat
  failed : List String

/-- `extract_all_data`: run the loop, append metadata, and fail the whole
extraction (`return None, {...}`) when a critical entity type is among
the failed endpoints. -/
def extract_all_data (tr : Transport) (fuel : Nat) : Option Extraction :=
  let acc := extractRaw tr fuel
  let withMeta := acc.data ++ [("_metadata", metadataVal acc.total acc.failed)]
  if (acc.failed.filter (fun dt => CRITICAL_TYPES.contains dt)).isEmpty then
    some { all_data := withMeta, total := acc.total, failed := acc.failed }
  else Option.none

/-- Outcome of the orchestrating `main()` from Step 1 on: `exit1` is
`sys.exit(1)`; `proceed` marks reaching Step 3, where the destructive
`db.drop_all()` / `db.create_all()` reset and the load stages run on the
filtered payload. -/
inductive MainResult where
  | exit1
  | proceed (filtered : List (String × Val))

/-- The decision flow of `main()`: on authentication or extraction
failure fall back to the snapshot file (`None` when `instance/data.json`
does not exist); exit with code 1 when no data could be obtained, when
the data is falsy, or when it is not a dictionary; otherwise filter the
default data and enter Step 3. The interactive confirmation prompt and
the pre-run database backup that precede Step 1 are elided. -/
def mainFlow (du : List String) (authOk : Bool) (extraction : Option Extraction)
    (snapshot : Option Val) : MainResult :=
  let data : Option Val :=
    if authOk then
      match extraction with
      | some e => some (.obj e.all_data)
      | Option.none => snapshot
    else snapshot
  match data with
  | Option.none => .exit1
  | some d =>
    if !d.truthy then .exit1
    else
      match d with
      | .obj kvs => .proceed (filter_default_data du kvs)
      | _ => .exit1

/-- Per-entity-type record count of one extraction run (the summand the
running `total_records` accumulates for that type). -/
def typeTotal (tr : Transport) (fuel : Nat) (dt : String) : Nat :=
  if paginatedTypes.contains dt then (pageLoop (tr.pag dt) fuel 1 [] []).records.length
  else
    match tr.single dt with
    | .ok body =>
      match lookupKV body dt with
      | some v => (match v with | .list xs => xs.length | _ => 1)
      | Option.none => 0
    | .fail => 0

/-- Per-entity-type payload entry of one extraction run (`none` when a
single-shot fetch fails and stores nothing). -/
def typeEntry (tr : Transport) (fuel : Nat) (dt : String) : Option (String × Val) :=
  if paginatedTypes.contains dt then
    some (dt, .list (pageLoop (tr.pag dt) fuel 1 [] []).records)
  else
    match tr.single dt with
    | .ok body =>
      match lookupKV body dt with
      | some v => some (dt, v)
      | Option.none => some (dt, .list [])
    | .fail => Option.none

/-- Whether one extraction run records the entity type as failed. -/
def typeFailed (tr : Transport) (fuel : Nat) (dt : String) : Bool :=
  if paginatedTypes.contains dt then (pageLoop (tr.pag dt) fuel 1 [] []).failed
  else
    match tr.single dt with
    | .ok _ => false
    | .fail => true

/-- The C5 failing input: a post and a microblog both authored by the
hard-coded seed user `niko`, identified by the flat `userUid` field with
no nested `user` object — the shape the export endpoints produce. -/
def nikoAuthoredRec : Val := .obj [("userUid", .str "niko"), ("content", .str "hello")]

def c5payload : List (String × Val) :=
  [("microblogs", .list [nikoAuthoredRec]), ("posts", .list [nikoAuthoredRec])]

/-- Invariant carried through both passes of the post import, relative
to the initial id counter `base` and initial table `basePosts`: ids are
assigned at or above `base`; the table only grows; every remap-table
entry points at a newly created, parentless post; every first-pass
record created with a truthy `id` field is recorded in the remap table;
and the tallies count exactly the per-record outcomes. -/
def PostsCoreInv (base : Nat) (basePosts : List PostRow) (st : PostsImportState) : Prop :=
  base ≤ st.db.nextId ∧
  (∃ new, st.db.posts = basePosts ++ new) ∧
  (∀ kv ∈ st.mapping, base ≤ kv.2 ∧
    ∃ row ∈ st.db.posts, row.id = kv.2 ∧ row.parent_id = Option.none) ∧
  (∀ pr ∈ st.firstTrace, ∀ i, pr.2 = some i →
    (pr.1.get "id").truthy = true → (pr.1.get "id", i) ∈ st.mapping) ∧
  st.failed = st.firstTrace.countP (fun pr => pr.2.isNone) +
    st.replyTrace.countP (fun rr => rr.2.isNone) ∧
  st.imported = st.firstTrace.countP (fun pr => pr.2.isSome) +
    st.replyTrace.countP (fun rr => rr.2.isSome) ∧
  st.db.posts.length = basePosts.length + st.imported

/-- Invariant of the second pass, with the remap table frozen at `M`: a
reply whose old parent id misses the table is not created, and a created
reply's row carries exactly the table's new id as its parent. -/
def PostsReplyInv (M : List (Val × Nat)) (st : PostsImportState) : Prop :=
  st.mapping = M ∧
  ∀ rr ∈ st.replyTrace,
    (mLookup M (oldParentOf rr.1) = Option.none → rr.2 = Option.none) ∧
    (∀ row, rr.2 = some row → row ∈ st.db.posts ∧
      ∃ n, mLookup M (oldParentOf rr.1) = some n ∧ row.parent_id = some n)

/-- Transport on which the users export fails terminally while every
other endpoint answers normally. -/
def c3transport : Transport :=
  { pag := fun dt _ _ => if dt == "users" then .terminal else .ok [] false
    single := fun dt => .ok [(dt, .list [])] }

/-- Transport on which the posts export returns one record on page 1 and
fails terminally on page 2, every other endpoint answering normally. -/
def c10transport : Transport :=
  { pag := fun dt page _ =>
      if dt == "posts" then (if page == 1 then .ok [.obj [("id", .int 1)]] true else .terminal)
      else .ok [] false
    single := fun dt => .ok [(dt, .list [])] }

/-- A source that serves two full pages of 50 records and then an empty
page, the scenario of the pagination-termination property. -/
def c6transport : Nat → Nat → Resp := fun page _ =>
  if page = 1 then .ok (List.replicate 50 (.obj [("id", .int 1)])) true
  else if page = 2 then .ok (List.replicate 50 (.obj [("id", .int 1)])) true
  else .ok [] false

/-- Demonstration of the reply remap on concrete data: a top-level post
with source id 100 and a reply referencing parent 100, both authored by
an existing user with surrogate id 7. The created reply's parent is the
newly assigned id 1 of the created top-level post, not the literal 100. -/
def demoPostsUser : UserRow :=
  { id := 7, name := .str "Alice", uid := .str "alice", password := .str "",
    sid := .null, role := .str "User", pfp := .null, kasm_server_needed := .bool false,
    grade_data := .null, ap_exam := .null, school := .null, classes := .null,
    email := .null, sectionIds := [] }

def demoPostsPayload : List Val :=
  [.obj [("id", .int 100), ("userUid", .str "alice"), ("content", .str "top")],
   .obj [("parentId", .int 100), ("userUid", .str "alice"), ("content", .str "re")]]

/-- An empty target database, as after `db.create_all()` (surrogate ids
start at 1). -/
def emptyDB : DB :=
  { sections := [], users := [], topics := [], personas := [], user_personas := [],
    microblogs := [], study := [], nextId := 1 }

/-! ## Association-list lookup lemmas -/

theorem lookupKV_append_some {a b : List (String × Val)} {k : String} {v : Val}
    (h : lookupKV a k = some v) : lookupKV (a ++ b) k = some v := by
  induction a with
  | nil => simp [lookupKV] at h
  | cons hd tl ih =>
    obtain ⟨k', v'⟩ := hd
    simp only [lookupKV, List.cons_append] at h ⊢
    by_cases hk : (k' == k) = true
    · rw [if_pos hk] at h ⊢; exact h
    · rw [if_neg hk] at h ⊢; exact ih h

theorem lookupKV_append_none {a b : List (String × Val)} {k : String}
    (h : lookupKV a k = Option.none) : lookupKV (a ++ b) k = lookupKV b k := by
  induction a with
  | nil => rfl
  | cons hd tl ih =>
    obtain ⟨k', v'⟩ := hd
    simp only [lookupKV, List.cons_append] at h ⊢
    by_cases hk : (k' == k) = true
    · rw [if_pos hk] at h; exact absurd h (by simp)
    · rw [if_neg hk] at h ⊢; exact ih h

theorem lookupKV_none_of_keys {l : List (String × Val)} {k : String}
    (h : ∀ kv ∈ l, kv.1 ≠ k) : lookupKV l k = Option.none := by
  induction l with
  | nil => rfl
  | cons hd tl ih =>
    obtain ⟨k', v'⟩ := hd
    have hk' : k' ≠ k := h (k', v') (by simp)
    simp only [lookupKV]
    rw [if_neg (by simpa using hk')]
    exact ih (fun kv hkv => h kv (by simp [hkv]))

theorem lookupKV_filter_isNone (m l : List (String × Val)) (k : String) :
    lookupKV (l.filter (fun kv => (lookupKV m kv.1).isNone)) k =
      if (lookupKV m k).isNone then lookupKV l k else Option.none := by
  induction l with
  | nil => simp [lookupKV]
  | cons hd tl ih =>
    obtain ⟨k', v'⟩ := hd
    by_cases hk : k' = k
    · subst hk
      by_cases hq : (lookupKV m k').isNone = true
      · simp [List.filter_cons, hq, lookupKV]
      · simp [List.filter_cons, hq, lookupKV, ih]
    · have hbk : (k' == k) = false := by simpa using hk
      by_cases hq : (lookupKV m k').isNone = true
      · simp [List.filter_cons, hq, lookupKV, hbk, ih]
      · simp [List.filter_cons, hq, lookupKV, hbk, ih]

theorem lookupKV_map_keys (ks : List String) (f : String → Val) (k : String) :
    lookupKV (ks.map (fun k' => (k', f k'))) k =
      if k ∈ ks then some (f k) else Option.none := by
  induction ks with
  | nil => simp [lookupKV]
  | cons hd tl ih =>
    by_cases hk : hd = k
    · subst hk
      simp [lookupKV]
    · simp only [List.map_cons, lookupKV]
      rw [if_neg (by simpa using hk), ih]
      by_cases hmem : k ∈ tl <;> simp [hmem, hk, Ne.symm hk]

theorem branchEntry_keys {c : Bool} {n : String} {v : Val} :
    ∀ kv ∈ branchEntry c n v, kv.1 = n := by
  intro kv h
  unfold branchEntry at h
  split at h <;> simp_all

/-- The pass-through part of the filter: the explicit copies of the five
remaining collections. -/
theorem lookupKV_copyPart (all_data : List (String × Val)) (k : String) :
    lookupKV ((copyKeys.filter (fun k' => (lookupKV all_data k').isSome)).map
        (fun k' => (k', (lookupKV all_data k').getD .null))) k =
      if k ∈ copyKeys ∧ (lookupKV all_data k).isSome then lookupKV all_data k
      else Option.none := by
  rw [lookupKV_map_keys]
  by_cases hmem : k ∈ copyKeys.filter (fun k' => (lookupKV all_data k').isSome)
  · rw [if_pos hmem]
    have h2 := List.mem_filter.mp hmem
    cases hl : lookupKV all_data k with
    | none => rw [hl] at h2; simp at h2
    | some v => simp [h2.1, hl]
  · rw [if_neg hmem]
    rw [List.mem_filter] at hmem
    push_neg at hmem
    by_cases hck : k ∈ copyKeys
    · have := hmem hck
      cases hl : lookupKV all_data k with
      | none => simp [hck, hl]
      | some v => rw [hl] at this; simp at this
    · simp [hck]

/-- C9 core: with the rewritten entries confined to the five entity keys,
every other key reads back exactly its input value. -/
theorem filter_frame_core (f5 : List (String × Val)) (all_data : List (String × Val))
    (k : String) (h5 : ∀ kv ∈ f5, kv.1 ∈ filteredEntityKeys) (hk : k ∉ filteredEntityKeys) :
    lookupKV ((f5 ++
        ((copyKeys.filter (fun k' => (lookupKV all_data k').isSome)).map
          (fun k' => (k', (lookupKV all_data k').getD .null)))) ++
        all_data.filter (fun kv =>
          (lookupKV (f5 ++
            ((copyKeys.filter (fun k' => (lookupKV all_data k').isSome)).map
              (fun k' => (k', (lookupKV all_data k').getD .null)))) kv.1).isNone)) k =
      lookupKV all_data k := by
  have h5none : lookupKV f5 k = Option.none :=
    lookupKV_none_of_keys (fun kv hkv hkk => hk (hkk ▸ h5 kv hkv))
  have hcopy := lookupKV_copyPart all_data k
  by_cases hc : k ∈ copyKeys ∧ (lookupKV all_data k).isSome
  · rw [if_pos hc] at hcopy
    obtain ⟨v, hv⟩ := Option.isSome_iff_exists.mp hc.2
    have hf6 : lookupKV (f5 ++
        ((copyKeys.filter (fun k' => (lookupKV all_data k').isSome)).map
          (fun k' => (k', (lookupKV all_data k').getD .null)))) k = some v := by
      rw [lookupKV_append_none h5none, hcopy, hv]
    rw [lookupKV_append_some hf6, hv]
  · rw [if_neg hc] at hcopy
    have hf6 : lookupKV (f5 ++
        ((copyKeys.filter (fun k' => (lookupKV all_data k').isSome)).map
          (fun k' => (k', (lookupKV all_data k').getD .null)))) k = Option.none := by
      rw [lookupKV_append_none h5none, hcopy]
    rw [lookupKV_append_none hf6, lookupKV_filter_isNone, hf6]
    simp

/-- C9: the default-data filter leaves every payload key other than
`users`, `sections`, `topics`, `microblogs` and `posts` — the five copied
collections, the metadata block and any other key — reading back exactly
as in the input. -/
theorem c9_filter_leaves_other_keys (du : List String) (all_data : List (String × Val))
    (k : String) (hk : k ∉ filteredEntityKeys) :
    lookupKV (filter_default_data du all_data) k = lookupKV all_data k := by
  unfold filter_default_data
  refine filter_frame_core _ all_data k ?_ hk
  intro kv hkv
  simp only [List.mem_append] at hkv
  rcases hkv with ((((h | h) | h) | h) | h) <;>
    rw [branchEntry_keys kv h] <;> simp [filteredEntityKeys]

/-- Concrete instance for C9: a payload with a metadata block and a
classrooms collection; both read back unchanged. -/
theorem c9_filter_leaves_other_keys_witness :
    lookupKV (filter_default_data ["admin", "user", "niko"]
        [("users", .list [.obj [("uid", .str "alice")]]),
         ("classrooms", .list [.obj [("name", .str "c1")]]),
         ("_metadata", .obj [("total_records", .int 2)])]) "_metadata" =
      lookupKV
        [("users", .list [.obj [("uid", .str "alice")]]),
         ("classrooms", .list [.obj [("name", .str "c1")]]),
         ("_metadata", .obj [("total_records", .int 2)])] "_metadata" :=
  c9_filter_leaves_other_keys ["admin", "user", "niko"] _ "_metadata" (by decide)

/-- C5 (code bug): on a posts record carrying only `userUid`, the filter
keeps the seed-authored post — the guard `isinstance(p.get('user'), dict)`
captures the whole `or`-chain, so the author expression collapses to
`None` — while the parallel microblogs branch drops the identically
shaped record, as the claim requires. -/
theorem c5_post_seed_filter_retains :
    lookupKV (filter_default_data ["admin", "user", "niko"] c5payload) "posts" =
        some (.list [nikoAuthoredRec]) ∧
      lookupKV (filter_default_data ["admin", "user", "niko"] c5payload) "microblogs" =
        some (.list []) :=
  ⟨rfl, rfl⟩

/-! ## Idempotence of the natural-key guarded imports (C4) -/

theorem eqV_refl {v : Val} (h : v.isScalar = true) : eqV v v = true := by
  cases v <;> simp_all [eqV, Val.isScalar]

theorem find?_append_some {α : Type} {l₁ l₂ : List α} {p : α → Bool} {x : α}
    (h : l₁.find? p = some x) : (l₁ ++ l₂).find? p = some x := by
  induction l₁ with
  | nil => simp [List.find?] at h
  | cons a tl ih =>
    cases hp : p a with
    | true =>
      rw [List.find?_cons_of_pos _ hp] at h
      rw [List.cons_append, List.find?_cons_of_pos _ hp]
      exact h
    | false =>
      rw [List.find?_cons_of_neg _ (by simp [hp])] at h
      rw [List.cons_append, List.find?_cons_of_neg _ (by simp [hp])]
      exact ih h

theorem find?_append_isSome {α : Type} {l₁ l₂ : List α} {p : α → Bool}
    (h : (l₁.find? p).isSome) : ((l₁ ++ l₂).find? p).isSome := by
  obtain ⟨x, hx⟩ := Option.isSome_iff_exists.mp h
  simp [find?_append_some hx]

theorem keyedImport_rows_mono {Row : Type} (key : Val → Val) (rk : Row → Val)
    (mk : Nat → Val → Row) (data : List Val) (rows : List Row) (nid : Nat) (t : Tally) :
    ∃ new, (keyedImport key rk mk data rows nid t).1 = rows ++ new := by
  induction data generalizing rows nid t with
  | nil => exact ⟨[], by simp [keyedImport]⟩
  | cons rd rest ih =>
    rw [keyedImport]
    by_cases hf : (rows.find? (fun r => eqV (rk r) (key rd))).isSome
    · rw [if_pos hf]; exact ih rows nid t
    · rw [if_neg hf]
      obtain ⟨new, hnew⟩ := ih (rows ++ [mk nid rd]) (nid + 1) { t with imported := t.imported + 1 }
      exact ⟨mk nid rd :: new, by simpa using hnew⟩

theorem keyedImport_key_present {Row : Type} {key : Val → Val} {rk : Row → Val}
    {mk : Nat → Val → Row} (hmk : ∀ nid rd, rk (mk nid rd) = key rd) :
    ∀ (data : List Val) (rows : List Row) (nid : Nat) (t : Tally),
      (∀ rd ∈ data, (key rd).isScalar = true) →
      ∀ rd ∈ data,
        ((keyedImport key rk mk data rows nid t).1.find? (fun r => eqV (rk r) (key rd))).isSome
  | [], _, _, _, _, rd, hrd => by simp at hrd
  | hd :: rest, rows, nid, t, hscal, rd, hrd => by
    rw [keyedImport]
    by_cases hf : (rows.find? (fun r => eqV (rk r) (key hd))).isSome
    · rw [if_pos hf]
      rcases List.mem_cons.mp hrd with heq | hmem
      · subst heq
        obtain ⟨new, hnew⟩ := keyedImport_rows_mono key rk mk rest rows nid t
        rw [hnew]
        exact find?_append_isSome hf
      · exact keyedImport_key_present hmk rest rows nid t
          (fun x hx => hscal x (by simp [hx])) rd hmem
    · rw [if_neg hf]
      rcases List.mem_cons.mp hrd with heq | hmem
      · subst heq
        have hpres : ((rows ++ [mk nid rd]).find? (fun r => eqV (rk r) (key rd))).isSome := by
          rw [List.find?_isSome]
          exact ⟨mk nid rd, by simp, by simp [hmk, eqV_refl (hscal rd (by simp))]⟩
        obtain ⟨new, hnew⟩ := keyedImport_rows_mono key rk mk rest (rows ++ [mk nid rd]) (nid + 1)
          { t with imported := t.imported + 1 }
        rw [hnew]
        exact find?_append_isSome hpres
      · exact keyedImport_key_present hmk rest (rows ++ [mk nid hd]) (nid + 1)
          { t with imported := t.imported + 1 } (fun x hx => hscal x (by simp [hx])) rd hmem

theorem keyedImport_skip_all {Row : Type} {key : Val → Val} {rk : Row → Val}
    {mk : Nat → Val → Row} :
    ∀ (data : List Val) (rows : List Row) (nid : Nat) (t : Tally),
      (∀ rd ∈ data, (rows.find? (fun r => eqV (rk r) (key rd))).isSome) →
      keyedImport key rk mk data rows nid t = (rows, nid, t)
  | [], _, _, _, _ => rfl
  | hd :: rest, rows, nid, t, h => by
    rw [keyedImport, if_pos (h hd (by simp))]
    exact keyedImport_skip_all rest rows nid t (fun rd hrd => h rd (by simp [hrd]))

/-- The generic second run: every record of the payload is found by its
natural key and skipped, leaving the rows, the id counter and the tally
untouched. -/
theorem keyedImport_idempotent {Row : Type} {key : Val → Val} {rk : Row → Val}
    {mk : Nat → Val → Row} (hmk : ∀ nid rd, rk (mk nid rd) = key rd)
    (data : List Val) (rows : List Row) (nid : Nat)
    (hscal : ∀ rd ∈ data, (key rd).isScalar = true) :
    keyedImport key rk mk data
        (keyedImport key rk mk data rows nid zeroTally).1
        (keyedImport key rk mk data rows nid zeroTally).2.1 zeroTally =
      ((keyedImport key rk mk data rows nid zeroTally).1,
        (keyedImport key rk mk data rows nid zeroTally).2.1, zeroTally) :=
  keyedImport_skip_all data _ _ zeroTally
    (keyedImport_key_present hmk data rows nid zeroTally hscal)

theorem importUserPersonas_shape (data : List Val) (db : DB) (t : Tally) :
    ∃ new, (importUserPersonas data db t).1 =
      { db with user_personas := db.user_personas ++ new } := by
  induction data generalizing db t with
  | nil => exact ⟨[], by simp [importUserPersonas]⟩
  | cons upd rest ih =>
    rw [importUserPersonas]
    cases hres : upResolved db.users db.personas upd with
    | none => dsimp only; exact ih db { t with failed := t.failed + 1 }
    | some pr =>
      obtain ⟨uN, pN⟩ := pr
      dsimp only
      cases hfp : findUserPersona db.user_personas uN pN with
      | some x => dsimp only; exact ih db t
      | none =>
        dsimp only
        obtain ⟨new, hnew⟩ := ih
          { db with user_personas :=
              db.user_personas ++ [{ user_id := uN, persona_id := pN, weight := upd.getD "weight" (.int 1) }] }
          { t with imported := t.imported + 1 }
        refine ⟨{ user_id := uN, persona_id := pN, weight := upd.getD "weight" (.int 1) } :: new, ?_⟩
        rw [hnew]
        simp

theorem importUserPersonas_pairs_present (data : List Val) (db : DB) (t : Tally) :
    ∀ upd ∈ data, ∀ uN pN, upResolved db.users db.personas upd = some (uN, pN) →
      (findUserPersona (importUserPersonas data db t).1.user_personas uN pN).isSome := by
  induction data generalizing db t with
  | nil => intro upd h; simp at h
  | cons hd rest ih =>
    intro upd hupd uN pN hres
    rw [importUserPersonas]
    cases hhd : upResolved db.users db.personas hd with
    | none =>
      dsimp only
      rcases List.mem_cons.mp hupd with heq | hmem
      · subst heq; rw [hhd] at hres; cases hres
      · exact ih db { t with failed := t.failed + 1 } upd hmem uN pN hres
    | some pr =>
      obtain ⟨uN', pN'⟩ := pr
      dsimp only
      cases hfp : findUserPersona db.user_personas uN' pN' with
      | some x =>
        dsimp only
        rcases List.mem_cons.mp hupd with heq | hmem
        · subst heq
          rw [hhd] at hres
          injection hres with h1
          injection h1 with h2 h3
          subst h2; subst h3
          obtain ⟨new, hnew⟩ := importUserPersonas_shape rest db t
          rw [hnew]
          simp only [findUserPersona] at hfp ⊢
          exact find?_append_isSome (by simp [hfp])
        · exact ih db t upd hmem uN pN hres
      | none =>
        dsimp only
        rcases List.mem_cons.mp hupd with heq | hmem
        · subst heq
          rw [hhd] at hres
          injection hres with h1
          injection h1 with h2 h3
          subst h2; subst h3
          obtain ⟨new, hnew⟩ := importUserPersonas_shape rest
            { db with user_personas :=
                db.user_personas ++ [{ user_id := uN', persona_id := pN', weight := upd.getD "weight" (.int 1) }] }
            { t with imported := t.imported + 1 }
          rw [hnew]
          simp only [findUserPersona]
          refine find?_append_isSome ?_
          dsimp only
          rw [List.find?_isSome]
          refine ⟨{ user_id := uN', persona_id := pN', weight := upd.getD "weight" (.int 1) },
            by simp, by simp⟩
        · exact ih
            { db with user_personas :=
                db.user_personas ++ [{ user_id := uN', persona_id := pN', weight := hd.getD "weight" (.int 1) }] }
            { t with imported := t.imported + 1 } upd hmem uN pN hres

theorem importUserPersonas_failed_count (data : List Val) (db : DB) (t : Tally) :
    (importUserPersonas data db t).2.failed =
      t.failed + data.countP (fun upd => (upResolved db.users db.personas upd).isNone) := by
  induction data generalizing db t with
  | nil => simp [importUserPersonas]
  | cons hd rest ih =>
    rw [importUserPersonas]
    cases hhd : upResolved db.users db.personas hd with
    | none =>
      dsimp only
      rw [ih db { t with failed := t.failed + 1 }]
      simp [List.countP_cons, hhd]
      omega
    | some pr =>
      obtain ⟨uN, pN⟩ := pr
      dsimp only
      cases hfp : findUserPersona db.user_personas uN pN with
      | some x =>
        dsimp only
        rw [ih db t]
        simp [List.countP_cons, hhd]
      | none =>
        dsimp only
        rw [ih _ { t with imported := t.imported + 1 }]
        simp [List.countP_cons, hhd]

theorem importUserPersonas_all_present :
    ∀ (data : List Val) (db : DB) (t : Tally),
      (∀ upd ∈ data, ∀ uN pN, upResolved db.users db.personas upd = some (uN, pN) →
        (findUserPersona db.user_personas uN pN).isSome) →
      importUserPersonas data db t =
        (db, { t with failed :=
          t.failed + data.countP (fun upd => (upResolved db.users db.personas upd).isNone) })
  | [], db, t, _ => by simp [importUserPersonas]
  | hd :: rest, db, t, h => by
    rw [importUserPersonas]
    cases hhd : upResolved db.users db.personas hd with
    | none =>
      dsimp only
      rw [importUserPersonas_all_present rest db { t with failed := t.failed + 1 }
        (fun upd hm => h upd (by simp [hm]))]
      simp only [List.countP_cons, hhd, Option.isNone_none, if_true, Prod.mk.injEq, Tally.mk.injEq,
        eq_self_iff_true, true_and]
      omega
    | some pr =>
      obtain ⟨uN, pN⟩ := pr
      dsimp only
      have hfp := h hd (by simp) uN pN hhd
      obtain ⟨x, hx⟩ := Option.isSome_iff_exists.mp hfp
      rw [hx]
      dsimp only
      rw [importUserPersonas_all_present rest db t (fun upd hm => h upd (by simp [hm]))]
      simp [List.countP_cons, hhd]
/-- C4: loading the same payload twice is idempotent for every entity
type with a natural-key uniqueness constraint — sections by abbreviation,
users by uid, topics by page path, personas by alias, user-persona pairs
by (user, persona). On the second run every record is found by its key
and skipped (not an error): the target state is unchanged and zero
records are created (for user-persona pairs, the `failed` tally repeats
only the first run's missing-dependency skips). The scalar hypotheses
say the key fields are scalar values, as in every exported payload. -/
theorem c4_idempotent_reimport :
    (∀ (data : List Val) (db : DB), (∀ sd ∈ data, (sectionKey sd).isScalar = true) →
      importSections data (importSections data db).1 = ((importSections data db).1, zeroTally)) ∧
    (∀ (data : List Val) (db : DB), (∀ ud ∈ data, (userKey ud).isScalar = true) →
      importUsers data (importUsers data db).1 = ((importUsers data db).1, zeroTally)) ∧
    (∀ (data : List Val) (db : DB), (∀ td ∈ data, (topicKey td).isScalar = true) →
      importTopics data (importTopics data db).1 = ((importTopics data db).1, zeroTally)) ∧
    (∀ (data : List Val) (db : DB), (∀ pd ∈ data, (personaKey pd).isScalar = true) →
      importPersonas data (importPersonas data db).1 = ((importPersonas data db).1, zeroTally)) ∧
    (∀ (data : List Val) (db : DB),
      importUserPersonas data (importUserPersonas data db zeroTally).1 zeroTally =
        ((importUserPersonas data db zeroTally).1,
          { imported := 0, failed := (importUserPersonas data db zeroTally).2.failed })) := by
  refine ⟨?_, ?_, ?_, ?_, ?_⟩
  · intro data db hscal
    simp only [importSections]
    rw [@keyedImport_idempotent SectionRow sectionKey SectionRow.abbreviation mkSectionRow
      (fun _ _ => rfl) data db.sections db.nextId hscal]
  · intro data db hscal
    simp only [importUsers]
    rw [@keyedImport_idempotent UserRow userKey UserRow.uid (mkUserRow db.sections)
      (fun _ _ => rfl) data db.users db.nextId hscal]
  · intro data db hscal
    simp only [importTopics]
    rw [@keyedImport_idempotent TopicRow topicKey TopicRow.page_path mkTopicRow
      (fun _ _ => rfl) data db.topics db.nextId hscal]
  · intro data db hscal
    simp only [importPersonas]
    rw [@keyedImport_idempotent PersonaRow personaKey PersonaRow.palias mkPersonaRow
      (fun _ _ => rfl) data db.personas db.nextId hscal]
  · intro data db
    obtain ⟨new, hnew⟩ := importUserPersonas_shape data db zeroTally
    have husers : (importUserPersonas data db zeroTally).1.users = db.users := by rw [hnew]
    have hpersonas : (importUserPersonas data db zeroTally).1.personas = db.personas := by
      rw [hnew]
    have hpresent : ∀ upd ∈ data, ∀ uN pN,
        upResolved (importUserPersonas data db zeroTally).1.users
          (importUserPersonas data db zeroTally).1.personas upd = some (uN, pN) →
        (findUserPersona (importUserPersonas data db zeroTally).1.user_personas uN pN).isSome := by
      intro upd hm uN pN hres
      rw [husers, hpersonas] at hres
      exact importUserPersonas_pairs_present data db zeroTally upd hm uN pN hres
    rw [importUserPersonas_all_present data _ zeroTally hpresent]
    have hcount : (importUserPersonas data db zeroTally).2.failed =
        data.countP (fun upd => (upResolved (importUserPersonas data db zeroTally).1.users
          (importUserPersonas data db zeroTally).1.personas upd).isNone) := by
      rw [importUserPersonas_failed_count data db zeroTally]
      simp only [husers, hpersonas]
      simp only [zeroTally]
      omega
    rw [hcount]
    simp only [zeroTally, Nat.zero_add]
/-! ## Study records are retained even when orphaned (C8) -/

/-- Full characterization of the study import: one row per payload
record, appended in order with consecutive ids, every record counted
imported and none failed. -/
theorem importStudy_char : ∀ (data : List Val) (db : DB) (t : Tally),
    importStudy data db t =
      ({ db with
          study := db.study ++ studyRowsSpec db.users db.nextId data,
          nextId := db.nextId + data.length },
        { t with imported := t.imported + data.length })
  | [], db, t => by simp [importStudy, studyRowsSpec]
  | sr :: rest, db, t => by
    rw [importStudy, importStudy_char rest _ _]
    simp only [studyRowsSpec, List.length_cons, Prod.mk.injEq, DB.mk.injEq, Tally.mk.injEq,
      List.append_assoc, List.singleton_append, List.cons_append, eq_self_iff_true, true_and,
      and_true]
    refine ⟨⟨by simp, by omega⟩, by omega⟩

/-- Each created study row corresponds to its source record: the stored
user reference is the resolved user's id, or null when no user with the
record's uid exists. -/
theorem studyRowsSpec_forall2 : ∀ (users : List UserRow) (nid : Nat) (data : List Val),
    List.Forall₂ (fun sr row =>
        row.user_id = (resolveStudyUser users sr).map (fun u => u.id) ∧
        row.topic = sr.get "topic" ∧ row.timestamp = sr.get "timestamp")
      data (studyRowsSpec users nid data)
  | _, _, [] => List.Forall₂.nil
  | users, nid, sr :: rest =>
    List.Forall₂.cons ⟨rfl, rfl, rfl⟩ (studyRowsSpec_forall2 users (nid + 1) rest)

/-- Contrast for C8: the microblog import skips (and counts failed)
every record whose user does not resolve, creating nothing. -/
theorem importMicroblogs_all_unresolved :
    ∀ (data : List Val) (db : DB) (t : Tally),
      (∀ mb ∈ data, mbResolveUser db.users mb = Option.none) →
      importMicroblogs data db t = (db, { t with failed := t.failed + data.length })
  | [], db, t, _ => by simp [importMicroblogs]
  | mb :: rest, db, t, h => by
    rw [importMicroblogs, h mb (by simp)]
    dsimp only
    rw [importMicroblogs_all_unresolved rest db { t with failed := t.failed + 1 }
      (fun x hx => h x (by simp [hx]))]
    simp only [List.length_cons, Prod.mk.injEq, Tally.mk.injEq, eq_self_iff_true, true_and]
    omega
/-- C8: the study-loading stage creates every record in the payload —
the tally shows all imported, none failed, and the table grows by one
row per record — and each created row's user reference is the resolved
user's id, which is null exactly when the record's uid resolves to no
existing user (the orphaned record is still created). Unlike this, the
microblog stage (a dependent entity type) skips every record whose user
does not resolve, creating nothing. -/
theorem c8_study_created_even_orphaned :
    (∀ (data : List Val) (db : DB) (t : Tally),
      importStudy data db t =
        ({ db with
            study := db.study ++ studyRowsSpec db.users db.nextId data,
            nextId := db.nextId + data.length },
          { t with imported := t.imported + data.length })) ∧
    (∀ (users : List UserRow) (nid : Nat) (data : List Val),
      List.Forall₂ (fun sr row =>
          row.user_id = (resolveStudyUser users sr).map (fun u => u.id) ∧
          row.topic = sr.get "topic" ∧ row.timestamp = sr.get "timestamp")
        data (studyRowsSpec users nid data)) ∧
    (∀ (data : List Val) (db : DB) (t : Tally),
      (∀ mb ∈ data, mbResolveUser db.users mb = Option.none) →
      importMicroblogs data db t = (db, { t with failed := t.failed + data.length })) :=
  And.intro importStudy_char (And.intro studyRowsSpec_forall2 importMicroblogs_all_unresolved)
/-! ## Two-pass post import: invariants (C1, C2) -/

theorem runPass_inv (P : PostsImportState → Prop) (step : Val → PostsImportState → PostsImportState)
    (hstep : ∀ p st, P st → P (step p st)) :
    ∀ (data : List Val) (st : PostsImportState), P st → P (runPass step data st)
  | [], _, h => h
  | p :: rest, st, h => runPass_inv P step hstep rest (step p st) (hstep p st h)

theorem mapOk_append {base : Nat} {posts : List PostRow} (extra : List PostRow)
    {m : List (Val × Nat)}
    (h : ∀ kv ∈ m, base ≤ kv.2 ∧ ∃ row ∈ posts, row.id = kv.2 ∧ row.parent_id = Option.none) :
    ∀ kv ∈ m, base ≤ kv.2 ∧
      ∃ row ∈ posts ++ extra, row.id = kv.2 ∧ row.parent_id = Option.none := by
  intro kv hkv
  obtain ⟨hb, row, hrow, hid, hpar⟩ := h kv hkv
  exact ⟨hb, row, List.mem_append_left _ hrow, hid, hpar⟩

theorem postsFirstStep_core (resolve : Val → Option Nat) (base : Nat) (basePosts : List PostRow)
    (p : Val) (st : PostsImportState) (h : PostsCoreInv base basePosts st) :
    PostsCoreInv base basePosts (postsFirstStep resolve p st) := by
  obtain ⟨hnext, ⟨new, hposts⟩, hmap, hft, hfail, himp, hlen⟩ := h
  unfold postsFirstStep
  cases hres : resolve p with
  | none =>
    refine ⟨hnext, ⟨new, hposts⟩, hmap, ?_, ?_, ?_, ?_⟩
    · intro pr hpr i hi
      rcases List.mem_append.mp hpr with hold | hnew2
      · exact hft pr hold i hi
      · simp only [List.mem_singleton] at hnew2
        subst hnew2
        simp at hi
    · simp [List.countP_append, hfail, List.countP_cons] <;> omega
    · simp [List.countP_append, himp, List.countP_cons] <;> omega
    · simpa using hlen
  | some uId =>
    dsimp only
    refine ⟨by dsimp only; omega, ⟨new ++ [_], by dsimp only; rw [hposts, List.append_assoc]⟩,
      ?_, ?_, ?_, ?_, ?_⟩
    · intro kv hkv
      dsimp only at hkv ⊢
      by_cases htr : (p.get "id").truthy = true
      · rw [if_pos htr] at hkv
        rcases List.mem_cons.mp hkv with heq | hmem
        · subst heq
          exact ⟨hnext, _, List.mem_append_right _ (List.mem_singleton_self _), rfl, rfl⟩
        · exact mapOk_append _ hmap kv hmem
      · rw [if_neg htr] at hkv
        exact mapOk_append _ hmap kv hkv
    · intro pr hpr i hi htr
      dsimp only at hpr ⊢
      rcases List.mem_append.mp hpr with hold | hnew2
      · have := hft pr hold i hi htr
        by_cases hc : (p.get "id").truthy = true
        · rw [if_pos hc]; exact List.mem_cons_of_mem _ this
        · rw [if_neg hc]; exact this
      · simp only [List.mem_singleton] at hnew2
        subst hnew2
        simp only at hi htr ⊢
        injection hi with hi'
        subst hi'
        rw [if_pos htr]
        exact List.mem_cons_self _ _
    · dsimp only
      simp [List.countP_append, hfail, List.countP_cons] <;> omega
    · dsimp only
      simp [List.countP_append, himp, List.countP_cons] <;> omega
    · dsimp only
      simp only [List.length_append, List.length_singleton, hlen]
      simp [List.countP_append, himp, List.countP_cons] <;> omega
theorem postsSecondStep_core (resolve : Val → Option Nat) (base : Nat) (basePosts : List PostRow)
    (r : Val) (st : PostsImportState) (h : PostsCoreInv base basePosts st) :
    PostsCoreInv base basePosts (postsSecondStep resolve r st) := by
  obtain ⟨hnext, ⟨new, hposts⟩, hmap, hft, hfail, himp, hlen⟩ := h
  unfold postsSecondStep
  cases hres : resolve r with
  | none =>
    refine ⟨hnext, ⟨new, hposts⟩, hmap, hft, ?_, ?_, ?_⟩
    · simp [List.countP_append, hfail, List.countP_cons] <;> omega
    · simp [List.countP_append, himp, List.countP_cons] <;> omega
    · simpa using hlen
  | some uId =>
    dsimp only
    cases hlk : mLookup st.mapping (oldParentOf r) with
    | none =>
      dsimp only
      refine ⟨hnext, ⟨new, hposts⟩, hmap, hft, ?_, ?_, ?_⟩
      · simp [List.countP_append, hfail, List.countP_cons] <;> omega
      · simp [List.countP_append, himp, List.countP_cons] <;> omega
      · simpa using hlen
    | some np =>
      dsimp only
      by_cases hz : np = 0
      · rw [if_pos hz]
        refine ⟨hnext, ⟨new, hposts⟩, hmap, hft, ?_, ?_, ?_⟩
        · simp [List.countP_append, hfail, List.countP_cons] <;> omega
        · simp [List.countP_append, himp, List.countP_cons] <;> omega
        · simpa using hlen
      · rw [if_neg hz]
        refine ⟨by dsimp only; omega,
          ⟨new ++ [_], by dsimp only; rw [hposts, List.append_assoc]⟩,
          mapOk_append _ hmap, hft, ?_, ?_, ?_⟩
        · dsimp only
          simp [List.countP_append, hfail, List.countP_cons] <;> omega
        · dsimp only
          simp [List.countP_append, himp, List.countP_cons] <;> omega
        · dsimp only
          simp only [List.length_append, List.length_singleton, hlen]
          simp [List.countP_append, himp, List.countP_cons] <;> omega

theorem postsSecondStep_reply (resolve : Val → Option Nat) (M : List (Val × Nat))
    (r : Val) (st : PostsImportState) (h : PostsReplyInv M st) :
    PostsReplyInv M (postsSecondStep resolve r st) := by
  obtain ⟨hM, hrt⟩ := h
  unfold postsSecondStep
  cases hres : resolve r with
  | none =>
    refine ⟨hM, ?_⟩
    intro rr hrr
    rcases List.mem_append.mp hrr with hold | hnew
    · exact hrt rr hold
    · simp only [List.mem_singleton] at hnew
      subst hnew
      exact ⟨fun _ => rfl, fun row hrow => by simp at hrow⟩
  | some uId =>
    dsimp only
    cases hlk : mLookup st.mapping (oldParentOf r) with
    | none =>
      dsimp only
      refine ⟨hM, ?_⟩
      intro rr hrr
      rcases List.mem_append.mp hrr with hold | hnew
      · exact hrt rr hold
      · simp only [List.mem_singleton] at hnew
        subst hnew
        exact ⟨fun _ => rfl, fun row hrow => by simp at hrow⟩
    | some np =>
      dsimp only
      by_cases hz : np = 0
      · rw [if_pos hz]
        refine ⟨hM, ?_⟩
        intro rr hrr
        rcases List.mem_append.mp hrr with hold | hnew
        · exact hrt rr hold
        · simp only [List.mem_singleton] at hnew
          subst hnew
          exact ⟨fun _ => rfl, fun row hrow => by simp at hrow⟩
      · rw [if_neg hz]
        refine ⟨hM, ?_⟩
        intro rr hrr
        dsimp only at hrr
        rcases List.mem_append.mp hrr with hold | hnew
        · obtain ⟨h1, h2⟩ := hrt rr hold
          refine ⟨h1, ?_⟩
          intro row hrow
          obtain ⟨hmem, n, hn, hpar⟩ := h2 row hrow
          exact ⟨List.mem_append_left _ hmem, n, hn, hpar⟩
        · simp only [List.mem_singleton] at hnew
          subst hnew
          refine ⟨?_, ?_⟩
          · intro hcontra
            rw [hM] at hlk
            rw [hcontra] at hlk
            cases hlk
          · intro row hrow
            dsimp only at hrow
            injection hrow with hrow'
            subst hrow'
            refine ⟨List.mem_append_right _ (List.mem_singleton_self _), np, ?_, rfl⟩
            rw [← hM]
            exact hlk
theorem postsFirstStep_traceShape (resolve : Val → Option Nat) (p : Val) (st : PostsImportState) :
    (postsFirstStep resolve p st).firstTrace.map Prod.fst = st.firstTrace.map Prod.fst ++ [p] ∧
    (postsFirstStep resolve p st).replyTrace = st.replyTrace := by
  unfold postsFirstStep
  cases resolve p <;> simp

theorem postsSecondStep_traceShape (resolve : Val → Option Nat) (r : Val) (st : PostsImportState) :
    (postsSecondStep resolve r st).replyTrace.map Prod.fst = st.replyTrace.map Prod.fst ++ [r] ∧
    (postsSecondStep resolve r st).firstTrace = st.firstTrace := by
  unfold postsSecondStep
  cases resolve r with
  | none => simp
  | some uId =>
    dsimp only
    cases mLookup st.mapping (oldParentOf r) with
    | none => simp
    | some np =>
      dsimp only
      by_cases hz : np = 0
      · rw [if_pos hz]; simp
      · rw [if_neg hz]; simp

theorem runPass_first_traces (resolve : Val → Option Nat) :
    ∀ (data : List Val) (st : PostsImportState),
      (runPass (postsFirstStep resolve) data st).firstTrace.map Prod.fst =
          st.firstTrace.map Prod.fst ++ data ∧
      (runPass (postsFirstStep resolve) data st).replyTrace = st.replyTrace
  | [], st => ⟨by simp [runPass], rfl⟩
  | p :: rest, st => by
    obtain ⟨h1, h2⟩ := runPass_first_traces resolve rest (postsFirstStep resolve p st)
    obtain ⟨g1, g2⟩ := postsFirstStep_traceShape resolve p st
    refine ⟨?_, ?_⟩
    · rw [runPass, h1, g1]; simp
    · rw [runPass, h2, g2]

theorem runPass_second_traces (resolve : Val → Option Nat) :
    ∀ (data : List Val) (st : PostsImportState),
      (runPass (postsSecondStep resolve) data st).replyTrace.map Prod.fst =
          st.replyTrace.map Prod.fst ++ data ∧
      (runPass (postsSecondStep resolve) data st).firstTrace = st.firstTrace
  | [], st => ⟨by simp [runPass], rfl⟩
  | r :: rest, st => by
    obtain ⟨h1, h2⟩ := runPass_second_traces resolve rest (postsSecondStep resolve r st)
    obtain ⟨g1, g2⟩ := postsSecondStep_traceShape resolve r st
    refine ⟨?_, ?_⟩
    · rw [runPass, h1, g1]; simp
    · rw [runPass, h2, g2]

theorem mLookup_mem {m : List (Val × Nat)} {k : Val} {n : Nat} (h : mLookup m k = some n) :
    ∃ k', (k', n) ∈ m := by
  induction m with
  | nil => simp [mLookup] at h
  | cons kv rest ih =>
    obtain ⟨k', v'⟩ := kv
    simp only [mLookup] at h
    by_cases he : eqV k' k = true
    · rw [if_pos he] at h
      injection h with h'
      subst h'
      exact ⟨k', by simp⟩
    · rw [if_neg he] at h
      obtain ⟨k2, hk2⟩ := ih h
      exact ⟨k2, by simp [hk2]⟩

/-- Both invariants hold of the completed post import: the core
invariant relative to the initial state, and the reply invariant with
respect to the import's own final remap table (which the second pass
never changes). -/
theorem importPosts_inv (resolve : Val → Option Nat) (posts_data : List Val) (db : PostsDB) :
    PostsCoreInv db.nextId db.posts (importPosts resolve posts_data db) ∧
    PostsReplyInv (importPosts resolve posts_data db).mapping (importPosts resolve posts_data db) := by
  unfold importPosts
  have h0 : PostsCoreInv db.nextId db.posts
      { db := db, mapping := [], imported := 0, failed := 0, firstTrace := [], replyTrace := [] } := by
    refine ⟨le_refl _, ⟨[], by simp⟩, ?_, ?_, ?_, ?_, ?_⟩ <;> simp
  have h1 := runPass_inv _ _ (postsFirstStep_core resolve db.nextId db.posts)
    (posts_data.filter (fun p => !isReplyRec p)) _ h0
  have hcore := runPass_inv _ _ (postsSecondStep_core resolve db.nextId db.posts)
    (posts_data.filter (fun p => isReplyRec p)) _ h1
  have hrt0 := (runPass_first_traces resolve (posts_data.filter (fun p => !isReplyRec p))
    { db := db, mapping := [], imported := 0, failed := 0, firstTrace := [], replyTrace := [] }).2
  have hre0 : PostsReplyInv (runPass (postsFirstStep resolve)
      (posts_data.filter (fun p => !isReplyRec p))
      { db := db, mapping := [], imported := 0, failed := 0,
        firstTrace := [], replyTrace := [] }).mapping
      (runPass (postsFirstStep resolve) (posts_data.filter (fun p => !isReplyRec p))
        { db := db, mapping := [], imported := 0, failed := 0,
          firstTrace := [], replyTrace := [] }) := by
    refine ⟨rfl, ?_⟩
    intro rr hrr
    rw [hrt0] at hrr
    simp at hrr
  have hreply := runPass_inv _ _ (postsSecondStep_reply resolve _)
    (posts_data.filter (fun p => isReplyRec p)) _ hre0
  obtain ⟨hMeq, hrest⟩ := hreply
  exact ⟨hcore, rfl, fun rr hrr => by rw [hMeq]; exact hrest rr hrr⟩

/-- C1: the post import runs two passes over the split payload — the
first pass covers exactly the records without a parent reference, the
second exactly the replies. Every remap-table entry maps an old id to
the id of a post newly created by the first pass (at or above the
initial id counter) with no parent reference; every first-pass record
created with a truthy `id` field is recorded in the table; and every
created reply's stored parent reference is exactly the table's new id
for the reply's old parent — never the old literal, which the table
translates to a newly assigned id. -/
theorem c1_two_pass_reply_remap (resolve : Val → Option Nat) (posts_data : List Val) (db : PostsDB) :
    ((importPosts resolve posts_data db).firstTrace.map Prod.fst =
        posts_data.filter (fun p => !isReplyRec p) ∧
      (importPosts resolve posts_data db).replyTrace.map Prod.fst =
        posts_data.filter (fun p => isReplyRec p)) ∧
    (∀ kv ∈ (importPosts resolve posts_data db).mapping, db.nextId ≤ kv.2 ∧
      ∃ row ∈ (importPosts resolve posts_data db).db.posts,
        row.id = kv.2 ∧ row.parent_id = Option.none) ∧
    (∀ pr ∈ (importPosts resolve posts_data db).firstTrace, ∀ i, pr.2 = some i →
      (pr.1.get "id").truthy = true →
      (pr.1.get "id", i) ∈ (importPosts resolve posts_data db).mapping) ∧
    (∀ rr ∈ (importPosts resolve posts_data db).replyTrace, ∀ row, rr.2 = some row →
      row ∈ (importPosts resolve posts_data db).db.posts ∧
      ∃ n, mLookup (importPosts resolve posts_data db).mapping (oldParentOf rr.1) = some n ∧
        row.parent_id = some n) := by
  obtain ⟨⟨_, _, hmap, hft, _, _, _⟩, _, hrt⟩ := importPosts_inv resolve posts_data db
  refine ⟨⟨?_, ?_⟩, hmap, hft, fun rr hrr row hrow => (hrt rr hrr).2 row hrow⟩
  · show (importPosts resolve posts_data db).firstTrace.map Prod.fst = _
    unfold importPosts
    rw [(runPass_second_traces resolve _ _).2, (runPass_first_traces resolve _ _).1]
    simp
  · show (importPosts resolve posts_data db).replyTrace.map Prod.fst = _
    unfold importPosts
    rw [(runPass_second_traces resolve _ _).1, (runPass_first_traces resolve _ _).2]
    simp

/-- C2: a reply whose old parent id has no remap-table entry is not
created; every skipped record is counted (the `failed`/`imported`
tallies are exactly the per-record outcome counts, and the table grows
by exactly one row per import); and a reply that is created always
carries a real parent — the id of a parentless post present in the final
table — never a null or dangling reference. -/
theorem c2_orphan_reply_rejected (resolve : Val → Option Nat) (posts_data : List Val) (db : PostsDB) :
    (∀ rr ∈ (importPosts resolve posts_data db).replyTrace,
      mLookup (importPosts resolve posts_data db).mapping (oldParentOf rr.1) = Option.none →
      rr.2 = Option.none) ∧
    (importPosts resolve posts_data db).failed =
      (importPosts resolve posts_data db).firstTrace.countP (fun pr => pr.2.isNone) +
        (importPosts resolve posts_data db).replyTrace.countP (fun rr => rr.2.isNone) ∧
    (importPosts resolve posts_data db).imported =
      (importPosts resolve posts_data db).firstTrace.countP (fun pr => pr.2.isSome) +
        (importPosts resolve posts_data db).replyTrace.countP (fun rr => rr.2.isSome) ∧
    (importPosts resolve posts_data db).db.posts.length =
      db.posts.length + (importPosts resolve posts_data db).imported ∧
    (∀ rr ∈ (importPosts resolve posts_data db).replyTrace, ∀ row, rr.2 = some row →
      ∃ n, row.parent_id = some n ∧
        ∃ prow ∈ (importPosts resolve posts_data db).db.posts,
          prow.id = n ∧ prow.parent_id = Option.none) := by
  obtain ⟨⟨_, _, hmap, _, hfail, himp, hlen⟩, _, hrt⟩ := importPosts_inv resolve posts_data db
  refine ⟨fun rr hrr => (hrt rr hrr).1, hfail, himp, hlen, ?_⟩
  intro rr hrr row hrow
  obtain ⟨_, n, hn, hpar⟩ := (hrt rr hrr).2 row hrow
  obtain ⟨k', hk'⟩ := mLookup_mem hn
  obtain ⟨_, prow, hprow, hpid, hppar⟩ := hmap (k', n) hk'
  exact ⟨n, hpar, prow, hprow, hpid, hppar⟩
/-! ## Pagination termination and retry policy (C6, C7) -/

theorem tryPage_succ (fetch : Nat → Resp) (idx left : Nat) :
    tryPage fetch idx (left + 1) =
      match fetch idx with
      | .ok rs hn => if rs.isEmpty then .empty (idx + 1) [] else .got rs hn (idx + 1) []
      | .transient =>
        if left == 0 then .failed (idx + 1) []
        else (tryPage fetch (idx + 1) left).addSleep 2
      | .terminal => .failed (idx + 1) [] := by
  rw [tryPage]

theorem pageLoop_succ (fetch : Nat → Nat → Resp) (fuel page : Nat) (acc : List Val)
    (tr : List PageOutcome) :
    pageLoop fetch (fuel + 1) page acc tr =
      match tryPage (fetch page) 0 3 with
      | .got rs hn a s => pageLoop fetch fuel (page + 1) (acc ++ rs) (tr ++ [.got rs hn a s])
      | .empty a s => { records := acc, failed := false, pages := tr ++ [.empty a s] }
      | .failed a s => { records := acc, failed := true, pages := tr ++ [.failed a s] } := by
  rw [pageLoop]

theorem tryPage_ok_step (f : Nat → Resp) (idx left : Nat) (rs : List Val) (hn : Bool)
    (h : f idx = .ok rs hn) :
    tryPage f idx (left + 1) =
      if rs.isEmpty then .empty (idx + 1) [] else .got rs hn (idx + 1) [] := by
  rw [tryPage_succ, h]

theorem tryPage_transient_step (f : Nat → Resp) (idx left : Nat) (h : f idx = .transient)
    (hl : left ≠ 0) :
    tryPage f idx (left + 1) = (tryPage f (idx + 1) left).addSleep 2 := by
  rw [tryPage_succ, h]
  dsimp only
  rw [if_neg (by simpa using hl)]

theorem tryPage_transient_last (f : Nat → Resp) (idx : Nat) (h : f idx = .transient) :
    tryPage f idx (0 + 1) = .failed (idx + 1) [] := by
  rw [tryPage_succ, h]
  rfl

theorem tryPage_terminal_step (f : Nat → Resp) (idx left : Nat) (h : f idx = .terminal) :
    tryPage f idx (left + 1) = .failed (idx + 1) [] := by
  rw [tryPage_succ, h]

/-- C6: when the source yields 50, 50, then 0 records on pages 1, 2, 3,
the page loop stops at the third (empty) page — three pages fetched, one
attempt each — and the aggregate holds exactly the 100 records,
concatenated in arrival order (`per_page` is fixed at 50 by the source;
the oracle supplies each page's contents). -/
theorem c6_pagination_terminates (F : Nat → Nat → Resp) (r1 r2 : List Val) (hn1 hn2 b3 : Bool)
    (fuel : Nat)
    (h1 : F 1 0 = .ok r1 hn1) (h2 : F 2 0 = .ok r2 hn2) (h3 : F 3 0 = .ok [] b3)
    (hl1 : r1.length = 50) (hl2 : r2.length = 50) (hfuel : 3 ≤ fuel) :
    pageLoop F fuel 1 [] [] =
      { records := r1 ++ r2, failed := false,
        pages := [.got r1 hn1 1 [], .got r2 hn2 1 [], .empty 1 []] } ∧
    (r1 ++ r2).length = 100 := by
  obtain ⟨k, rfl⟩ : ∃ k, fuel = k + 3 := ⟨fuel - 3, by omega⟩
  have hne1 : r1.isEmpty = false := by cases r1 <;> simp_all
  have hne2 : r2.isEmpty = false := by cases r2 <;> simp_all
  have t1 : tryPage (F 1) 0 3 = PageOutcome.got r1 hn1 1 [] := by
    rw [show (3 : Nat) = 2 + 1 from rfl, tryPage_ok_step (F 1) 0 2 r1 hn1 h1, hne1]
    rfl
  have t2 : tryPage (F 2) 0 3 = PageOutcome.got r2 hn2 1 [] := by
    rw [show (3 : Nat) = 2 + 1 from rfl, tryPage_ok_step (F 2) 0 2 r2 hn2 h2, hne2]
    rfl
  have t3 : tryPage (F 3) 0 3 = PageOutcome.empty 1 [] := by
    rw [show (3 : Nat) = 2 + 1 from rfl, tryPage_ok_step (F 3) 0 2 [] b3 h3]
    rfl
  constructor
  · have s1 : pageLoop F (k + 2 + 1) 1 [] [] =
        pageLoop F (k + 2) 2 ([] ++ r1) ([] ++ [PageOutcome.got r1 hn1 1 []]) := by
      rw [pageLoop_succ, t1]
    have s2 : pageLoop F (k + 1 + 1) 2 ([] ++ r1) ([] ++ [PageOutcome.got r1 hn1 1 []]) =
        pageLoop F (k + 1) 3 (([] ++ r1) ++ r2)
          (([] ++ [PageOutcome.got r1 hn1 1 []]) ++ [PageOutcome.got r2 hn2 1 []]) := by
      rw [pageLoop_succ, t2]
    have s3 : pageLoop F (k + 1) 3 (([] ++ r1) ++ r2)
        (([] ++ [PageOutcome.got r1 hn1 1 []]) ++ [PageOutcome.got r2 hn2 1 []]) =
        { records := ([] ++ r1) ++ r2, failed := false,
          pages := ((([] ++ [PageOutcome.got r1 hn1 1 []]) ++ [PageOutcome.got r2 hn2 1 []]) ++
            [PageOutcome.empty 1 []]) } := by
      rw [show k + 1 = k + 0 + 1 from rfl, pageLoop_succ, t3]
    rw [show k + 3 = k + 2 + 1 from rfl, s1, s2, s3]
    simp
  · rw [List.length_append, hl1, hl2]

theorem tryPage_attempts_le (f : Nat → Resp) : ∀ (left idx : Nat),
    (tryPage f idx left).attempts ≤ idx + left
  | 0, idx => by simp [tryPage, PageOutcome.attempts]
  | left + 1, idx => by
    rw [tryPage_succ]
    cases f idx with
    | ok rs hn =>
      dsimp only
      split <;> simp [PageOutcome.attempts] <;> omega
    | transient =>
      dsimp only
      by_cases hz : (left == 0) = true
      · rw [if_pos hz]
        simp [PageOutcome.attempts]
      · rw [if_neg hz]
        have hrec := tryPage_attempts_le f left (idx + 1)
        cases htp : tryPage f (idx + 1) left <;>
          rw [htp] at hrec <;>
          simp_all [PageOutcome.addSleep, PageOutcome.attempts] <;> omega
    | terminal =>
      dsimp only
      simp [PageOutcome.attempts]

theorem pageLoop_attempts_le (F : Nat → Nat → Resp) : ∀ (fuel page : Nat) (acc : List Val)
    (tr : List PageOutcome), (∀ o ∈ tr, o.attempts ≤ 3) →
    ∀ o ∈ (pageLoop F fuel page acc tr).pages, o.attempts ≤ 3
  | 0, _, _, _, h => fun o ho => h o ho
  | fuel + 1, page, acc, tr, h => by
    have hcap : (tryPage (F page) 0 3).attempts ≤ 3 := by
      simpa using tryPage_attempts_le (F page) 3 0
    rw [pageLoop_succ]
    cases htp : tryPage (F page) 0 3 with
    | got rs hn a s =>
      dsimp only
      refine pageLoop_attempts_le F fuel (page + 1) (acc ++ rs) _ ?_
      intro o ho
      rcases List.mem_append.mp ho with hold | hnew
      · exact h o hold
      · simp only [List.mem_singleton] at hnew
        subst hnew
        rw [htp] at hcap
        simpa [PageOutcome.attempts] using hcap
    | empty a s =>
      dsimp only
      intro o ho
      rcases List.mem_append.mp ho with hold | hnew
      · exact h o hold
      · simp only [List.mem_singleton] at hnew
        subst hnew
        rw [htp] at hcap
        simpa [PageOutcome.attempts] using hcap
    | failed a s =>
      dsimp only
      intro o ho
      rcases List.mem_append.mp ho with hold | hnew
      · exact h o hold
      · simp only [List.mem_singleton] at hnew
        subst hnew
        rw [htp] at hcap
        simpa [PageOutcome.attempts] using hcap

theorem pageLoop_failed_last (F : Nat → Nat → Resp) : ∀ (fuel page : Nat) (acc : List Val)
    (tr : List PageOutcome), (pageLoop F fuel page acc tr).failed = true →
    ∃ a s, (pageLoop F fuel page acc tr).pages.getLast? = some (.failed a s)
  | 0, page, acc, tr => by
    rw [pageLoop]
    simp
  | fuel + 1, page, acc, tr => by
    rw [pageLoop_succ]
    cases htp : tryPage (F page) 0 3 with
    | got rs hn a s =>
      dsimp only
      exact pageLoop_failed_last F fuel (page + 1) (acc ++ rs) _
    | empty a s =>
      dsimp only
      intro h
      simp at h
    | failed a s =>
      dsimp only
      intro _
      exact ⟨a, s, by simp [List.getLast?_concat]⟩

/-- C7: a transient failure (timeout or HTTP 504) is retried with a
fixed 2-second sleep between attempts, up to 3 attempts for the page —
succeeding at attempt k means exactly k + 1 requests and k sleeps of 2;
three transient failures fail the page after exactly 3 attempts; a
terminal failure (any other non-2xx status or request error) escalates
at once, with no further attempt. The attempt counter restarts at every
page — no page of a pagination run ever sees more than 3 attempts — and
a failed page marks the entity type failed (the loop ends on a failed
page outcome). -/
theorem c7_transient_retry_policy :
    (∀ (f : Nat → Resp) (rs : List Val) (hn : Bool) (k : Nat), k < 3 →
      (∀ i, i < k → f i = .transient) → f k = .ok rs hn →
      tryPage f 0 3 = (if rs.isEmpty then PageOutcome.empty (k + 1) (List.replicate k 2)
        else PageOutcome.got rs hn (k + 1) (List.replicate k 2))) ∧
    (∀ f : Nat → Resp, (∀ i, i < 3 → f i = .transient) →
      tryPage f 0 3 = PageOutcome.failed 3 (List.replicate 2 2)) ∧
    (∀ (f : Nat → Resp) (k : Nat), k < 3 → (∀ i, i < k → f i = .transient) →
      f k = .terminal → tryPage f 0 3 = PageOutcome.failed (k + 1) (List.replicate k 2)) ∧
    (∀ (F : Nat → Nat → Resp) (fuel page : Nat) (acc : List Val),
      ∀ o ∈ (pageLoop F fuel page acc []).pages, o.attempts ≤ 3) ∧
    (∀ (F : Nat → Nat → Resp) (fuel page : Nat) (acc : List Val),
      (pageLoop F fuel page acc []).failed = true →
      ∃ a s, (pageLoop F fuel page acc []).pages.getLast? = some (.failed a s)) := by
  refine ⟨?_, ?_, ?_, ?_, ?_⟩
  · intro f rs hn k hk htr hok
    interval_cases k
    · rw [show (3 : Nat) = 2 + 1 from rfl, tryPage_ok_step f 0 2 rs hn hok]
      cases hre : rs.isEmpty <;> simp [hre, List.replicate]
    · have e1 : tryPage f 0 3 = (tryPage f 1 2).addSleep 2 := by
        rw [show (3 : Nat) = 2 + 1 from rfl]
        exact tryPage_transient_step f 0 2 (htr 0 (by omega)) (by decide)
      have e2 : tryPage f 1 2 =
          if rs.isEmpty then PageOutcome.empty 2 [] else PageOutcome.got rs hn 2 [] :=
        tryPage_ok_step f 1 1 rs hn hok
      rw [e1, e2]
      cases hre : rs.isEmpty <;> simp [hre, PageOutcome.addSleep, List.replicate]
    · have e1 : tryPage f 0 3 = (tryPage f 1 2).addSleep 2 := by
        rw [show (3 : Nat) = 2 + 1 from rfl]
        exact tryPage_transient_step f 0 2 (htr 0 (by omega)) (by decide)
      have e2 : tryPage f 1 2 = (tryPage f 2 1).addSleep 2 := by
        rw [show (2 : Nat) = 1 + 1 from rfl]
        exact tryPage_transient_step f 1 1 (htr 1 (by omega)) (by decide)
      have e3 : tryPage f 2 1 =
          if rs.isEmpty then PageOutcome.empty 3 [] else PageOutcome.got rs hn 3 [] :=
        tryPage_ok_step f 2 0 rs hn hok
      rw [e1, e2, e3]
      cases hre : rs.isEmpty <;> simp [hre, PageOutcome.addSleep, List.replicate]
  · intro f h
    have e1 : tryPage f 0 3 = (tryPage f 1 2).addSleep 2 := by
      rw [show (3 : Nat) = 2 + 1 from rfl]
      exact tryPage_transient_step f 0 2 (h 0 (by omega)) (by decide)
    have e2 : tryPage f 1 2 = (tryPage f 2 1).addSleep 2 := by
      rw [show (2 : Nat) = 1 + 1 from rfl]
      exact tryPage_transient_step f 1 1 (h 1 (by omega)) (by decide)
    have e3 : tryPage f 2 1 = PageOutcome.failed 3 [] := by
      rw [show (1 : Nat) = 0 + 1 from rfl]
      exact tryPage_transient_last f 2 (h 2 (by omega))
    rw [e1, e2, e3]
    simp [PageOutcome.addSleep, List.replicate]
  · intro f k hk htr hterm
    interval_cases k
    · rw [show (3 : Nat) = 2 + 1 from rfl, tryPage_terminal_step f 0 2 hterm]
      simp [List.replicate]
    · have e1 : tryPage f 0 3 = (tryPage f 1 2).addSleep 2 := by
        rw [show (3 : Nat) = 2 + 1 from rfl]
        exact tryPage_transient_step f 0 2 (htr 0 (by omega)) (by decide)
      have e2 : tryPage f 1 2 = PageOutcome.failed 2 [] := by
        rw [show (2 : Nat) = 1 + 1 from rfl]
        exact tryPage_terminal_step f 1 1 hterm
      rw [e1, e2]
      simp [PageOutcome.addSleep, List.replicate]
    · have e1 : tryPage f 0 3 = (tryPage f 1 2).addSleep 2 := by
        rw [show (3 : Nat) = 2 + 1 from rfl]
        exact tryPage_transient_step f 0 2 (htr 0 (by omega)) (by decide)
      have e2 : tryPage f 1 2 = (tryPage f 2 1).addSleep 2 := by
        rw [show (2 : Nat) = 1 + 1 from rfl]
        exact tryPage_transient_step f 1 1 (htr 1 (by omega)) (by decide)
      have e3 : tryPage f 2 1 = PageOutcome.failed 3 [] := by
        rw [show (1 : Nat) = 0 + 1 from rfl]
        exact tryPage_terminal_step f 2 0 hterm
      rw [e1, e2, e3]
      simp [PageOutcome.addSleep, List.replicate]
  · intro F fuel page acc
    exact pageLoop_attempts_le F fuel page acc [] (by simp)
  · intro F fuel page acc
    exact pageLoop_failed_last F fuel page acc []
/-! ## Critical-entity gate and partial-record retention (C3, C10) -/

/-- The extraction fold, characterized entity type by entity type: the
payload entries, the running total and the failed list are each the
pointwise contribution of every type in order. -/
theorem extractFold_char (tr : Transport) (fuel : Nat) :
    ∀ (L : List String) (acc : ExtractAcc),
      L.foldl (extractStep tr fuel) acc =
        { data := acc.data ++ L.filterMap (typeEntry tr fuel),
          total := acc.total + (L.map (typeTotal tr fuel)).sum,
          failed := acc.failed ++ L.filter (typeFailed tr fuel) }
  | [], acc => by simp
  | dt :: rest, acc => by
    rw [List.foldl_cons, extractFold_char tr fuel rest]
    rw [List.filterMap_cons, List.map_cons, List.sum_cons, List.filter_cons]
    unfold extractStep typeEntry typeTotal typeFailed
    by_cases hp : paginatedTypes.contains dt = true
    · rw [if_pos hp, if_pos hp, if_pos hp, if_pos hp]
      dsimp only
      by_cases hf : (pageLoop (tr.pag dt) fuel 1 [] []).failed = true
      · rw [if_pos hf, if_pos hf]
        simp [List.append_assoc]
        omega
      · rw [if_neg hf, if_neg (by simpa using hf)]
        simp [List.append_assoc]
        omega
    · rw [if_neg hp, if_neg hp, if_neg hp, if_neg hp]
      cases hs : tr.single dt with
      | ok body =>
        dsimp only
        cases hl : lookupKV body dt with
        | none =>
          dsimp only
          simp [List.append_assoc]
        | some v =>
          dsimp only
          simp [List.append_assoc]
          omega
      | fail =>
        dsimp only
        simp [List.append_assoc]

theorem typeEntry_key (tr : Transport) (fuel : Nat) (dt : String) :
    ∀ kv, typeEntry tr fuel dt = some kv → kv.1 = dt := by
  intro kv h
  unfold typeEntry at h
  by_cases hp : paginatedTypes.contains dt = true
  · rw [if_pos hp] at h
    injection h with h'
    subst h'
    rfl
  · rw [if_neg hp] at h
    cases hs : tr.single dt with
    | ok body =>
      rw [hs] at h
      dsimp only at h
      cases hl : lookupKV body dt with
      | none => rw [hl] at h; injection h with h'; subst h'; rfl
      | some v => rw [hl] at h; injection h with h'; subst h'; rfl
    | fail => rw [hs] at h; cases h

theorem lookupKV_typeEntries (tr : Transport) (fuel : Nat) :
    ∀ (L : List String), L.Nodup → ∀ dt ∈ L,
      lookupKV (L.filterMap (typeEntry tr fuel)) dt =
        (typeEntry tr fuel dt).map Prod.snd := by
  intro L
  induction L with
  | nil => intro _ dt hdt; simp at hdt
  | cons d rest ih =>
    intro hnd dt hdt
    rw [List.filterMap_cons]
    cases he : typeEntry tr fuel d with
    | none =>
      rcases List.mem_cons.mp hdt with heq | hmem
      · subst heq
        rw [he]
        have hkeys : ∀ kv ∈ rest.filterMap (typeEntry tr fuel), kv.1 ≠ dt := by
          intro kv hkv
          obtain ⟨d2, hd2, he2⟩ := List.mem_filterMap.mp hkv
          rw [typeEntry_key tr fuel d2 kv he2]
          intro hcontra
          subst hcontra
          exact (List.nodup_cons.mp hnd).1 hd2
        rw [lookupKV_none_of_keys hkeys]
        rfl
      · exact ih (List.nodup_cons.mp hnd).2 dt hmem
    | some kv =>
      have hkey := typeEntry_key tr fuel d kv he
      rcases List.mem_cons.mp hdt with heq | hmem
      · subst heq
        rw [he]
        obtain ⟨k1, v1⟩ := kv
        simp only [lookupKV]
        rw [if_pos (by simpa using hkey)]
        rfl
      · obtain ⟨k1, v1⟩ := kv
        have hk1 : k1 = d := hkey
        have hdne : dt ≠ d := by
          intro hcontra
          subst hcontra
          exact (List.nodup_cons.mp hnd).1 hmem
        simp only [lookupKV]
        rw [if_neg (by simp only [hk1, beq_iff_eq]; exact fun hc => hdne hc.symm)]
        exact ih (List.nodup_cons.mp hnd).2 dt hmem

/-- The components of a successful extraction. -/
theorem extract_all_data_some (tr : Transport) (fuel : Nat) (e : Extraction)
    (hex : extract_all_data tr fuel = some e) :
    e.all_data = (extractRaw tr fuel).data ++
        [("_metadata", metadataVal (extractRaw tr fuel).total (extractRaw tr fuel).failed)] ∧
    e.total = (extractRaw tr fuel).total ∧ e.failed = (extractRaw tr fuel).failed := by
  simp only [extract_all_data] at hex
  by_cases hc : ((extractRaw tr fuel).failed.filter
      (fun dt => CRITICAL_TYPES.contains dt)).isEmpty = true
  · rw [if_pos hc] at hex
    injection hex with hex'
    subst hex'
    exact ⟨rfl, rfl, rfl⟩
  · rw [if_neg hc] at hex
    cases hex

/-- C3: when a critical entity type (`users` or `sections`) is among the
failed endpoints, the whole extraction reports failure — `None` instead
of a payload — and, with no fallback snapshot file, the run exits with
code 1 without ever reaching Step 3, where the destructive
drop-and-recreate of the target schema happens. -/
theorem c3_critical_gate (tr : Transport) (fuel : Nat) (du : List String)
    (hcrit : "users" ∈ (extractRaw tr fuel).failed ∨
      "sections" ∈ (extractRaw tr fuel).failed) :
    extract_all_data tr fuel = Option.none ∧
    mainFlow du true (extract_all_data tr fuel) Option.none = MainResult.exit1 := by
  have hmem : ∃ x, x ∈ (extractRaw tr fuel).failed.filter
      (fun dt => CRITICAL_TYPES.contains dt) := by
    rcases hcrit with h | h
    · exact ⟨"users", List.mem_filter.mpr ⟨h, by decide⟩⟩
    · exact ⟨"sections", List.mem_filter.mpr ⟨h, by decide⟩⟩
  have hne : ((extractRaw tr fuel).failed.filter
      (fun dt => CRITICAL_TYPES.contains dt)).isEmpty = false := by
    obtain ⟨x, hx⟩ := hmem
    cases hl : (extractRaw tr fuel).failed.filter (fun dt => CRITICAL_TYPES.contains dt) with
    | nil => rw [hl] at hx; simp at hx
    | cons a l => rfl
  have hnone : extract_all_data tr fuel = Option.none := by
    simp only [extract_all_data]
    rw [hne]
    simp
  refine ⟨hnone, ?_⟩
  rw [hnone]
  rfl

theorem c3_critical_gate_witness :
    extract_all_data c3transport 1 = Option.none ∧
    mainFlow ["admin", "user", "niko"] true (extract_all_data c3transport 1) Option.none =
      MainResult.exit1 :=
  c3_critical_gate c3transport 1 ["admin", "user", "niko"] (Or.inl (by decide))

/-- C10: if a paginated entity type fails partway through extraction,
but the extraction as a whole still returns a payload (no critical type
failed), then the payload maps the type to exactly the partially fetched
records, the type is listed among the failed endpoints, and the total
record count is the sum of per-type counts with this type contributing
the partial records' count — the partial collection is not discarded. -/
theorem c10_partial_records_kept (tr : Transport) (fuel : Nat) (dt : String) (e : Extraction)
    (hdt : dt ∈ paginatedTypes)
    (hfail : (pageLoop (tr.pag dt) fuel 1 [] []).failed = true)
    (hex : extract_all_data tr fuel = some e) :
    lookupKV e.all_data dt = some (.list (pageLoop (tr.pag dt) fuel 1 [] []).records) ∧
    dt ∈ e.failed ∧
    e.total = (EXPORT_TYPES.map (typeTotal tr fuel)).sum ∧
    typeTotal tr fuel dt = (pageLoop (tr.pag dt) fuel 1 [] []).records.length := by
  obtain ⟨hdata, htotal, hfailed⟩ := extract_all_data_some tr fuel e hex
  have hcont : paginatedTypes.contains dt = true := List.elem_iff.mpr hdt
  have hexport : dt ∈ EXPORT_TYPES := by
    have hsub : ∀ x ∈ paginatedTypes, x ∈ EXPORT_TYPES := by decide
    exact hsub dt hdt
  have hraw : extractRaw tr fuel =
      { data := [] ++ EXPORT_TYPES.filterMap (typeEntry tr fuel),
        total := 0 + (EXPORT_TYPES.map (typeTotal tr fuel)).sum,
        failed := [] ++ EXPORT_TYPES.filter (typeFailed tr fuel) } := by
    unfold extractRaw
    exact extractFold_char tr fuel EXPORT_TYPES _
  have hentry : typeEntry tr fuel dt =
      some (dt, .list (pageLoop (tr.pag dt) fuel 1 [] []).records) := by
    unfold typeEntry
    rw [if_pos hcont]
  have htfailed : typeFailed tr fuel dt = true := by
    unfold typeFailed
    rw [if_pos hcont]
    exact hfail
  refine ⟨?_, ?_, ?_, ?_⟩
  · rw [hdata, hraw]
    dsimp only
    have hlk : lookupKV ([] ++ EXPORT_TYPES.filterMap (typeEntry tr fuel)) dt =
        some (.list (pageLoop (tr.pag dt) fuel 1 [] []).records) := by
      rw [List.nil_append,
        lookupKV_typeEntries tr fuel EXPORT_TYPES (by decide) dt hexport, hentry]
      rfl
    exact lookupKV_append_some hlk
  · rw [hfailed, hraw]
    dsimp only
    rw [List.nil_append]
    exact List.mem_filter.mpr ⟨hexport, htfailed⟩
  · rw [htotal, hraw]
    simp
  · unfold typeTotal
    rw [if_pos hcont]

theorem c10_partial_records_kept_witness :
    lookupKV ((extract_all_data c10transport 2).getD ⟨[], 0, []⟩).all_data "posts" =
        some (.list (pageLoop (c10transport.pag "posts") 2 1 [] []).records) ∧
    "posts" ∈ ((extract_all_data c10transport 2).getD ⟨[], 0, []⟩).failed ∧
    ((extract_all_data c10transport 2).getD ⟨[], 0, []⟩).total =
      (EXPORT_TYPES.map (typeTotal c10transport 2)).sum ∧
    typeTotal c10transport 2 "posts" =
      (pageLoop (c10transport.pag "posts") 2 1 [] []).records.length :=
  c10_partial_records_kept c10transport 2 "posts" _ (by decide) (by decide) rfl
theorem c6_pagination_terminates_witness :
    pageLoop c6transport 3 1 [] [] =
      { records := List.replicate 50 (Val.obj [("id", .int 1)]) ++
          List.replicate 50 (Val.obj [("id", .int 1)]),
        failed := false,
        pages := [.got (List.replicate 50 (Val.obj [("id", .int 1)])) true 1 [],
          .got (List.replicate 50 (Val.obj [("id", .int 1)])) true 1 [],
          .empty 1 []] } ∧
    (List.replicate 50 (Val.obj [("id", .int 1)]) ++
      List.replicate 50 (Val.obj [("id", .int 1)])).length = 100 :=
  c6_pagination_terminates c6transport _ _ true true false 3 rfl rfl rfl
    (by simp) (by simp) (by omega)

theorem importPosts_remap_demo :
    (importPosts (apiResolvePost [demoPostsUser]) demoPostsPayload
        { posts := [], nextId := 1 }).db.posts =
      [{ id := 1, user_id := 7, content := .str "top", grade_received := .null,
         page_url := .null, page_title := .null, parent_id := Option.none },
       { id := 2, user_id := 7, content := .str "re", grade_received := .null,
         page_url := .null, page_title := .null, parent_id := some 1 }] ∧
    (importPosts (apiResolvePost [demoPostsUser])
      (demoPostsPayload ++ [.obj [("parentId", .int 999), ("userUid", .str "alice")]])
      { posts := [], nextId := 1 }).failed = 1 := by
  exact ⟨rfl, rfl⟩

/-- Concrete idempotence check: re-importing the same section payload a
second time skips it and changes nothing. -/
theorem importSections_idempotent_demo :
    importSections [.obj [("name", .str "Period 1"), ("abbreviation", .str "P1")]]
        (importSections [.obj [("name", .str "Period 1"), ("abbreviation", .str "P1")]]
          emptyDB).1 =
      ((importSections [.obj [("name", .str "Period 1"), ("abbreviation", .str "P1")]]
          emptyDB).1, zeroTally) := rfl

end PirnaMigration
